import Mathlib

/-! # Compression dispatch of ZFS: `module/zfs/zio_compress.c` and the boot decoder

A shallow embedding of the compression vector table, the property
resolvers `zio_complevel_select` and `zio_compress_select`, the compression
driver `zio_compress_data`, the decompression drivers
`zio_decompress_data_buf` and `zio_decompress_data`, the level query
`zio_decompress_getcomplevel`, `zio_compress_to_feature`, and the function
`zstd_decompress` of `sys/cddl/boot/zfs/zstd.c`, followed by the properties
proved about them.

Conventions of the embedding.

* `size_t` and `uint_t` values are natural numbers, `int32_t` and `int`
  values are integers.  The only `size_t` subtraction of the file,
  `s_len - (s_len >> 3)`, is shown not to underflow.
* A pointer to memory is a function from byte offsets to bytes; a buffer
  handed to a codec is the list of its bytes.
* A function pointer is the name of the function it points to; what the
  named codec functions compute is a parameter (`zio_codecs`).
* Code that cannot return a value (a failed `ASSERT` of a debug build, a
  call through a null function pointer, a read past the table, a null
  dereference) yields a `zio_fault`.
* Every driver reports the codec calls it made, in order.
-/

namespace ZioCompress

/-! ## Constants and types of the headers -/

/-- A byte of memory. -/
abbrev byte := Fin 256

/-- Constants that `zio_compress.c` takes from `sys/zio_compress.h` and whose
values the source files do not fix: the two values the generic `on` method
resolves to, and the sentinels of the zstd level enumeration. -/
structure zio_compress_h where
  ZIO_COMPRESS_LZ4_ON_VALUE : Nat
  ZIO_COMPRESS_LEGACY_ON_VALUE : Nat
  ZIO_ZSTDLVL_INHERIT : Int
  ZIO_ZSTDLVL_DEFAULT : Int
  ZIO_ZSTDLVL_LEVELS : Int
  ZIO_ZSTD_LEVEL_DEFAULT : Int
deriving DecidableEq, Repr

/-! The members of `enum zio_compress` index `zio_compress_table`; their
values are the positions of the rows of the table. -/

def ZIO_COMPRESS_INHERIT : Nat := 0
def ZIO_COMPRESS_ON : Nat := 1
def ZIO_COMPRESS_OFF : Nat := 2
def ZIO_COMPRESS_LZJB : Nat := 3
def ZIO_COMPRESS_EMPTY : Nat := 4
def ZIO_COMPRESS_GZIP_1 : Nat := 5
def ZIO_COMPRESS_GZIP_2 : Nat := 6
def ZIO_COMPRESS_GZIP_3 : Nat := 7
def ZIO_COMPRESS_GZIP_4 : Nat := 8
def ZIO_COMPRESS_GZIP_5 : Nat := 9
def ZIO_COMPRESS_GZIP_6 : Nat := 10
def ZIO_COMPRESS_GZIP_7 : Nat := 11
def ZIO_COMPRESS_GZIP_8 : Nat := 12
def ZIO_COMPRESS_GZIP_9 : Nat := 13
def ZIO_COMPRESS_ZLE : Nat := 14
def ZIO_COMPRESS_LZ4 : Nat := 15
def ZIO_COMPRESS_ZSTD : Nat := 16
def ZIO_COMPRESS_FUNCTIONS : Nat := 17

/-- The value of `EINVAL` in `errno.h`. -/
def EINVAL : Int := 22

/-- The tracing wrapper `SET_ERROR` returns its argument. -/
def SET_ERROR (err : Int) : Int := err

/-- The pool features that the source names. -/
inductive spa_feature_t where
  | SPA_FEATURE_NONE
  | SPA_FEATURE_LZ4_COMPRESS
  | SPA_FEATURE_ZSTD_COMPRESS
deriving DecidableEq, Repr

/-- The pool context, as far as this file looks into it: which features are
active. -/
structure spa_t where
  spa_feat_active : spa_feature_t → Bool

/-- Modelled from the spec: `spa_feature_is_active` is defined outside the
source files; it is the pure, read-only feature-activation query
`isFeatureActive(poolContext, featureId) -> bool`. -/
def spa_feature_is_active (spa : spa_t) (fid : spa_feature_t) : Bool :=
  spa.spa_feat_active fid

/-- The ways in which a function of this file fails to return a value. -/
inductive zio_fault where
  -- an ASSERT of a debug build failed at the given source line
  | assertion (line : Nat)
  -- a call through a null function pointer
  | null_call
  -- a read of zio_compress_table[c] with c past the end of the table
  | wild_read
  -- a dereference of a null pointer
  | null_deref
deriving DecidableEq, Repr

deriving instance DecidableEq for Except

/-- The macro `ASSERT(cond)`: checked in a debug build, compiled out
otherwise.  The result is the fault raised, if any. -/
def ASSERT (debug : Bool) (line : Nat) (cond : Bool) : Option zio_fault :=
  if debug && !cond then some (zio_fault.assertion line) else none

/-! ## The property resolvers -/

/-- The function `zio_complevel_select` (lines 70-85). -/
def zio_complevel_select (K : zio_compress_h) (debug : Bool) (_spa : spa_t)
    (child parent : Int) : Except zio_fault Int :=
  match ASSERT debug 76 (decide (child < K.ZIO_ZSTDLVL_LEVELS)) with
  | some f => Except.error f
  | none =>
  match ASSERT debug 77 (decide (parent < K.ZIO_ZSTDLVL_LEVELS)) with
  | some f => Except.error f
  | none =>
  match ASSERT debug 78 (decide (parent ≠ K.ZIO_ZSTDLVL_INHERIT)) with
  | some f => Except.error f
  | none =>
    let result := child
    let result := if result = K.ZIO_ZSTDLVL_INHERIT then parent else result
    Except.ok result

/-- The function `zio_compress_select` (lines 87-109). -/
def zio_compress_select (K : zio_compress_h) (debug : Bool) (spa : spa_t)
    (child parent : Nat) : Except zio_fault Nat :=
  match ASSERT debug 93 (decide (child < ZIO_COMPRESS_FUNCTIONS)) with
  | some f => Except.error f
  | none =>
  match ASSERT debug 94 (decide (parent < ZIO_COMPRESS_FUNCTIONS)) with
  | some f => Except.error f
  | none =>
  match ASSERT debug 95 (decide (parent ≠ ZIO_COMPRESS_INHERIT)) with
  | some f => Except.error f
  | none =>
    let result := child
    let result := if result = ZIO_COMPRESS_INHERIT then parent else result
    let result :=
      if result = ZIO_COMPRESS_ON then
        if spa_feature_is_active spa spa_feature_t.SPA_FEATURE_LZ4_COMPRESS then
          K.ZIO_COMPRESS_LZ4_ON_VALUE
        else
          K.ZIO_COMPRESS_LEGACY_ON_VALUE
      else result
    Except.ok result

/-! ## The compression vectors -/

/-- The codec functions a `ci_compress` slot of the table can point to. -/
inductive zio_compress_func where
  | lzjb_compress | gzip_compress | zle_compress | lz4_compress | zstd_compress
deriving DecidableEq, Repr

/-- The codec functions a `ci_decompress` slot of the table can point to. -/
inductive zio_decompress_func where
  | lzjb_decompress | gzip_decompress | zle_decompress | lz4_decompress
  | zstd_decompress
deriving DecidableEq, Repr

/-- The codec functions a `ci_decompress_level` slot can point to. -/
inductive zio_decompresslevel_func where
  | zstd_decompress_level
deriving DecidableEq, Repr

/-- The codec functions a `ci_get_level` slot can point to. -/
inductive zio_getlevel_func where
  | zstd_get_level
deriving DecidableEq, Repr

/-- A row of the table, `zio_compress_info_t`, with its six members in the
order of the initialisers; a null function pointer is `none`. -/
structure zio_compress_info_t where
  ci_name : String
  ci_level : Int
  ci_compress : Option zio_compress_func
  ci_decompress : Option zio_decompress_func
  ci_decompress_level : Option zio_decompresslevel_func
  ci_get_level : Option zio_getlevel_func
deriving DecidableEq, Repr

open zio_compress_func zio_decompress_func zio_decompresslevel_func
open zio_getlevel_func

/-- The table `zio_compress_table` (lines 49-68). -/
def zio_compress_table (K : zio_compress_h) : List zio_compress_info_t :=
  [ ⟨"inherit", 0, none, none, none, none⟩,
    ⟨"on", 0, none, none, none, none⟩,
    ⟨"uncompressed", 0, none, none, none, none⟩,
    ⟨"lzjb", 0, some lzjb_compress, some lzjb_decompress, none, none⟩,
    ⟨"empty", 0, none, none, none, none⟩,
    ⟨"gzip-1", 1, some gzip_compress, some gzip_decompress, none, none⟩,
    ⟨"gzip-2", 2, some gzip_compress, some gzip_decompress, none, none⟩,
    ⟨"gzip-3", 3, some gzip_compress, some gzip_decompress, none, none⟩,
    ⟨"gzip-4", 4, some gzip_compress, some gzip_decompress, none, none⟩,
    ⟨"gzip-5", 5, some gzip_compress, some gzip_decompress, none, none⟩,
    ⟨"gzip-6", 6, some gzip_compress, some gzip_decompress, none, none⟩,
    ⟨"gzip-7", 7, some gzip_compress, some gzip_decompress, none, none⟩,
    ⟨"gzip-8", 8, some gzip_compress, some gzip_decompress, none, none⟩,
    ⟨"gzip-9", 9, some gzip_compress, some gzip_decompress, none, none⟩,
    ⟨"zle", 64, some zle_compress, some zle_decompress, none, none⟩,
    ⟨"lz4", 0, some lz4_compress, some lz4_decompress, none, none⟩,
    ⟨"zstd", K.ZIO_ZSTD_LEVEL_DEFAULT, some zstd_compress, some zstd_decompress,
      some zstd_decompress_level, some zstd_get_level⟩ ]

/-- What the codec functions compute.  Each takes the bytes of its source
buffer, the bytes the destination holds before the call, and its scalar
arguments; it gives back its return value and the bytes the destination
holds after the call (and, for the level-aware functions, the value left
in `*level`). -/
structure zio_codecs where
  run_compress : zio_compress_func → List byte → List byte → Nat → Nat → Int →
    Nat × List byte
  run_decompress : zio_decompress_func → List byte → List byte → Nat → Nat →
    Int → Int × List byte
  run_decompress_level : zio_decompresslevel_func → List byte → List byte →
    Nat → Nat → Int → Int × List byte × Int
  run_get_level : zio_getlevel_func → List byte → Nat → Int → Int × Int

/-- A call of a codec function, with the arguments passed. -/
inductive zio_codec_call where
  | compress (f : zio_compress_func) (src : List byte) (s_len d_len : Nat)
      (level : Int)
  | decompress (f : zio_decompress_func) (src : List byte) (s_len d_len : Nat)
      (level : Int)
  | decompress_level (f : zio_decompresslevel_func) (src : List byte)
      (s_len d_len : Nat) (level : Int)
  | get_level (f : zio_getlevel_func) (src : List byte) (s_len : Nat)
      (level : Int)
deriving DecidableEq, Repr

/-! ## The compression driver -/

/-- The value of `*word` for the `uint64_t` pointer `word = data + 8 * k`: the
eight bytes at offsets `8 * k .. 8 * k + 7`, least significant first. -/
def load_uint64 (data : Nat → byte) (k : Nat) : Nat :=
  (data (8 * k)).val + 256 * ((data (8 * k + 1)).val
    + 256 * ((data (8 * k + 2)).val + 256 * ((data (8 * k + 3)).val
    + 256 * ((data (8 * k + 4)).val + 256 * ((data (8 * k + 5)).val
    + 256 * ((data (8 * k + 6)).val + 256 * (data (8 * k + 7)).val))))))

/-- The loop of `zio_compress_zeroed_cb` from the word of index `k` on, with
`n` iterations left.  It gives the value returned and the indices of the
words read, in order. -/
def zio_compress_zeroed_loop (data : Nat → byte) : Nat → Nat → Int × List Nat
  | 0, _ => (0, [])
  | n + 1, k =>
    if load_uint64 data k ≠ 0 then (1, [k])
    else
      let r := zio_compress_zeroed_loop data n (k + 1)
      (r.1, k :: r.2)

/-- The callback `zio_compress_zeroed_cb` (lines 112-121).  The pointer
`word = data + 8 * k` is below `end = data + len` exactly when `8 * k < len`,
so the loop runs over the `(len + 7) / 8` words of index `k` with
`8 * k < len` unless it returns earlier. -/
def zio_compress_zeroed_cb (data : Nat → byte) (len : Nat) : Int × List Nat :=
  zio_compress_zeroed_loop data ((len + 7) / 8) 0

/-- The buffer abstraction `abd_t`, as far as this file looks into it: the
bytes of the logical buffer. -/
structure abd_t where
  abd_buf : Nat → byte

/-- Modelled from the spec: `abd_iterate_func` is defined outside the source
files.  The buffer is scanned "as a sequence of machine words": the callback
is applied to the `size` bytes of the logical buffer from `off` on, as one
contiguous region, and its return value is returned. -/
def abd_iterate_func (abd : abd_t) (off size : Nat)
    (func : (Nat → byte) → Nat → Int × List Nat) : Int :=
  (func (fun i => abd.abd_buf (off + i)) size).1

/-- Modelled from the spec: `abd_borrow_buf_copy` is defined outside the
source files; `borrow(view, len) -> contiguous pointer`, where "the borrowed
region reflects exactly `[0, len)` of the logical buffer".  The matching
`abd_return_buf` gives the copy back and has no effect on the values
computed. -/
def abd_borrow_buf_copy (abd : abd_t) (n : Nat) : List byte :=
  (List.range n).map abd.abd_buf

/-- The block properties `zio_prop_t`, as far as this file reads them. -/
structure zio_prop_t where
  zp_complevel : Int
deriving DecidableEq, Repr

/-- What a call of `zio_compress_data` leaves behind: the value returned, the
bytes of `dst`, and the codec calls made. -/
structure zio_compress_out where
  ret : Nat
  dst : List byte
  calls : List zio_codec_call
deriving DecidableEq, Repr

/-- Lines 147-161 of `zio_compress_data`: the level passed to the codec.
The result `none` stands for the `return (s_len)` of line 153. -/
def zio_compress_data_complevel (K : zio_compress_h) (debug : Bool) (c : Nat)
    (ci : zio_compress_info_t) (zp : Option zio_prop_t) :
    Except zio_fault (Option Int) :=
  let complevel := ci.ci_level
  if c = ZIO_COMPRESS_ZSTD then
    match ASSERT debug 150 zp.isSome with
    | some f => Except.error f
    | none =>
    match zp with
    | none => Except.error zio_fault.null_deref
    | some p =>
      if p.zp_complevel = K.ZIO_ZSTDLVL_INHERIT then Except.ok none
      else
        let complevel :=
          if p.zp_complevel = K.ZIO_ZSTDLVL_DEFAULT then K.ZIO_ZSTD_LEVEL_DEFAULT
          else p.zp_complevel
        match ASSERT debug 160 (decide (complevel ≠ K.ZIO_ZSTDLVL_INHERIT)) with
        | some f => Except.error f
        | none => Except.ok (some complevel)
  else Except.ok (some complevel)

/-- The test `ci->ci_compress != NULL` for `ci = &zio_compress_table[c]`. -/
def has_ci_compress (K : zio_compress_h) (c : Nat) : Bool :=
  match (zio_compress_table K)[c]? with
  | some i => i.ci_compress.isSome
  | none => false

/-- The function `zio_compress_data` (lines 123-173). -/
def zio_compress_data (K : zio_compress_h) (E : zio_codecs) (debug : Bool)
    (c : Nat) (src : abd_t) (dst : List byte) (s_len : Nat)
    (zp : Option zio_prop_t) : Except zio_fault zio_compress_out :=
  let ci := (zio_compress_table K)[c]?
  match ASSERT debug 131 (decide (c < ZIO_COMPRESS_FUNCTIONS)) with
  | some f => Except.error f
  | none =>
  match ASSERT debug 132 (decide (c = ZIO_COMPRESS_EMPTY) || has_ci_compress K c) with
  | some f => Except.error f
  | none =>
  if abd_iterate_func src 0 s_len zio_compress_zeroed_cb = 0 then
    Except.ok ⟨0, dst, []⟩
  else if c = ZIO_COMPRESS_EMPTY then
    Except.ok ⟨s_len, dst, []⟩
  else
    let d_len := s_len - (s_len >>> 3)
    match ci with
    | none => Except.error zio_fault.wild_read
    | some i =>
    match zio_compress_data_complevel K debug c i zp with
    | Except.error f => Except.error f
    | Except.ok none => Except.ok ⟨s_len, dst, []⟩
    | Except.ok (some complevel) =>
    match i.ci_compress with
    | none => Except.error zio_fault.null_call
    | some fn =>
      let tmp := abd_borrow_buf_copy src s_len
      let r := E.run_compress fn tmp dst s_len d_len complevel
      let c_len := r.1
      let calls := [zio_codec_call.compress fn tmp s_len d_len complevel]
      if c_len > d_len then Except.ok ⟨s_len, r.2, calls⟩
      else
        match ASSERT debug 171 (decide (c_len ≤ d_len)) with
        | some f => Except.error f
        | none => Except.ok ⟨c_len, r.2, calls⟩

/-! ## The decompression driver -/

/-- What a call of `zio_decompress_data_buf` leaves behind: the value
returned, the bytes of `dst`, the value of `*level` when a level pointer was
passed, and the codec calls made. -/
structure zio_decompress_out where
  ret : Int
  dst : List byte
  level : Option Int
  calls : List zio_codec_call
deriving DecidableEq, Repr

/-- The function `zio_decompress_data_buf` (lines 175-187).  A null `level`
pointer is `none`. -/
def zio_decompress_data_buf (K : zio_compress_h) (E : zio_codecs) (c : Nat)
    (src dst : List byte) (s_len d_len : Nat) (level : Option Int) :
    Except zio_fault zio_decompress_out :=
  if c ≥ ZIO_COMPRESS_FUNCTIONS then
    Except.ok ⟨SET_ERROR EINVAL, dst, level, []⟩
  else
    match (zio_compress_table K)[c]? with
    | none => Except.error zio_fault.wild_read
    | some ci =>
    match ci.ci_decompress with
    | none => Except.ok ⟨SET_ERROR EINVAL, dst, level, []⟩
    | some fn =>
      match ci.ci_decompress_level, level with
      | some lfn, some lv =>
        let r := E.run_decompress_level lfn src dst s_len d_len lv
        Except.ok ⟨r.1, r.2.1, some r.2.2,
          [zio_codec_call.decompress_level lfn src s_len d_len lv]⟩
      | _, _ =>
        let r := E.run_decompress fn src dst s_len d_len ci.ci_level
        Except.ok ⟨r.1, r.2, level,
          [zio_codec_call.decompress fn src s_len d_len ci.ci_level]⟩

/-- The value of `EOPNOTSUPP` in `errno.h` (the value of Linux; FreeBSD has
45).  Nothing below depends on the value. -/
def EOPNOTSUPP : Int := 95

/-- What a call of `zio_decompress_data` leaves behind: the value returned,
the bytes of `dst`, the value of `*level` when a level pointer was passed,
the codec calls made, and the arguments of the calls of `spa_get_random`. -/
structure zio_decompress_data_out where
  ret : Int
  dst : List byte
  level : Option Int
  calls : List zio_codec_call
  draws : List Nat
deriving DecidableEq, Repr

/-- The function `zio_decompress_data` (lines 189-208).  The global
`zio_decompress_fail_fraction` and the value that `spa_get_random` gives for
its argument are parameters. -/
def zio_decompress_data (K : zio_compress_h) (E : zio_codecs) (debug : Bool)
    (zio_decompress_fail_fraction : Nat) (spa_get_random : Nat → Nat)
    (c : Nat) (src : abd_t) (dst : List byte) (s_len d_len : Nat)
    (level : Option Int) : Except zio_fault zio_decompress_data_out :=
  let tmp := abd_borrow_buf_copy src s_len
  match zio_decompress_data_buf K E c tmp dst s_len d_len level with
  | Except.error f => Except.error f
  | Except.ok d =>
    let ret := d.ret
    match ASSERT debug 202 (decide (ret = 0)) with
    | some f => Except.error f
    | none =>
      if zio_decompress_fail_fraction ≠ 0 then
        if spa_get_random zio_decompress_fail_fraction = 0 then
          Except.ok ⟨SET_ERROR EINVAL, d.dst, d.level, d.calls,
            [zio_decompress_fail_fraction]⟩
        else
          Except.ok ⟨ret, d.dst, d.level, d.calls, [zio_decompress_fail_fraction]⟩
      else
        Except.ok ⟨ret, d.dst, d.level, d.calls, []⟩

/-- What a call of `zio_decompress_getcomplevel` leaves behind: the value
returned, the value of `*level` when a level pointer was passed, and the
codec calls made. -/
structure zio_getcomplevel_out where
  ret : Int
  level : Option Int
  calls : List zio_codec_call
deriving DecidableEq, Repr

/-- The function `zio_decompress_getcomplevel` (lines 210-227). -/
def zio_decompress_getcomplevel (K : zio_compress_h) (E : zio_codecs) (c : Nat)
    (src : List byte) (s_len : Nat) (level : Option Int) :
    Except zio_fault zio_getcomplevel_out :=
  if c ≥ ZIO_COMPRESS_FUNCTIONS ∨ level = none then
    Except.ok ⟨SET_ERROR EINVAL, level, []⟩
  else
    match (zio_compress_table K)[c]? with
    | none => Except.error zio_fault.wild_read
    | some ci =>
    match ci.ci_get_level, level with
    | some gfn, some lv =>
      let r := E.run_get_level gfn src s_len lv
      Except.ok ⟨r.1, some r.2, [zio_codec_call.get_level gfn src s_len lv]⟩
    | none, _ => Except.ok ⟨SET_ERROR EOPNOTSUPP, level, []⟩
    | some _, none => Except.error zio_fault.null_deref

/-- The function `zio_compress_to_feature` (lines 229-238). -/
def zio_compress_to_feature (comp : Nat) : spa_feature_t :=
  if comp = ZIO_COMPRESS_ZSTD then spa_feature_t.SPA_FEATURE_ZSTD_COMPRESS
  else spa_feature_t.SPA_FEATURE_NONE

/-! ## The boot decoder: `sys/cddl/boot/zfs/zstd.c` -/

namespace boot

/-- What the C implementation leaves to the platform: the byte order of the
host and the width of `size_t` in bits. -/
structure platform where
  little_endian : Bool
  size_bits : Nat
deriving DecidableEq, Repr

/-- The value of `*(uint32_t *)(&src[off])`: the four bytes at `off`, in the
byte order of the host. -/
def load_uint32 (P : platform) (src : Nat → byte) (off : Nat) : Nat :=
  if P.little_endian then
    (src off).val + 256 * ((src (off + 1)).val
      + 256 * ((src (off + 2)).val + 256 * (src (off + 3)).val))
  else
    (src (off + 3)).val + 256 * ((src (off + 2)).val
      + 256 * ((src (off + 1)).val + 256 * (src off).val))

/-- The function `htonl` of `netinet/in.h`: a byte swap of the 32-bit value
on a little-endian host, the identity on a big-endian host. -/
def htonl (P : platform) (x : Nat) : Nat :=
  if P.little_endian then
    (x % 256) * 16777216 + (x / 256 % 256) * 65536 + (x / 65536 % 256) * 256
      + x / 16777216 % 256
  else x

/-- The macro `roundup2(x, y)` for a power of two `y`. -/
def roundup2 (x y : Nat) : Nat := (x + (y - 1)) / y * y

/-- The two static variables of the file, `dctxbuf` (null is `none`) and
`dctxsize`. -/
structure zstd_static where
  dctxbuf : Option Nat
  dctxsize : Nat
deriving DecidableEq, Repr

/-- What the functions called by `zstd_decompress` give back: the zstd
library and `malloc`.  `ZSTD_initStaticDCtx` is reduced to whether it returns
a context; `ZSTD_decompressDCtx` takes the bytes the destination holds, its
capacity, the source pointer and the source size, and gives back its return
value and the bytes the destination holds afterwards. -/
structure zstd_lib where
  ZSTD_estimateDCtxSize : Nat
  malloc : Nat → Option Nat
  ZSTD_initStaticDCtx : Nat → Nat → Bool
  ZSTD_decompressDCtx : List byte → Nat → (Nat → byte) → Nat → Nat × List byte
  ZSTD_isError : Nat → Bool

/-- A call made by `zstd_decompress`, in the order of the source.  For
`ZSTD_decompressDCtx` it records the destination capacity, the offset of the
source pointer from `s_start`, and the source size. -/
inductive zstd_call where
  | ZSTD_estimateDCtxSize
  | malloc (size : Nat)
  | ZSTD_initStaticDCtx (workspace size : Nat)
  | ZSTD_decompressDCtx (dstCapacity srcOffset srcSize : Nat)
deriving DecidableEq, Repr

/-- The messages the function prints, by the line of their `printf`:
line 48 (header), line 62 (allocation), line 70 (context), line 77
(block). -/
inductive zstd_message where
  | header_failed
  | allocation_failed
  | context_failed
  | block_failed
deriving DecidableEq, Repr

/-- What a call of `zstd_decompress` leaves behind: the value returned, the
bytes of the destination, the static variables, the calls made and the
messages printed. -/
structure zstd_out where
  ret : Int
  dst : List byte
  vars : zstd_static
  calls : List zstd_call
  printed : List zstd_message
deriving DecidableEq, Repr

/-- Lines 68-82 of `zstd_decompress`: the context is set up in the buffer
`buf` and the codec is run on the `bufsiz` bytes from offset 8 of the
source; `calls` are the calls made before. -/
def zstd_decompress_dctx (L : zstd_lib) (vars : zstd_static) (buf : Nat)
    (calls : List zstd_call) (src : Nat → byte) (d_start : List byte)
    (d_len bufsiz : Nat) : zstd_out :=
  if L.ZSTD_initStaticDCtx buf vars.dctxsize = false then
    ⟨1, d_start, vars, calls ++ [zstd_call.ZSTD_initStaticDCtx buf vars.dctxsize],
      [zstd_message.context_failed]⟩
  else
    let r := L.ZSTD_decompressDCtx d_start d_len (fun i => src (4 + 4 + i)) bufsiz
    let result := r.1
    if L.ZSTD_isError result then
      ⟨1, r.2, vars,
        calls ++ [zstd_call.ZSTD_initStaticDCtx buf vars.dctxsize,
          zstd_call.ZSTD_decompressDCtx d_len (4 + 4) bufsiz],
        [zstd_message.block_failed]⟩
    else
      ⟨0, r.2, vars,
        calls ++ [zstd_call.ZSTD_initStaticDCtx buf vars.dctxsize,
          zstd_call.ZSTD_decompressDCtx d_len (4 + 4) bufsiz],
        []⟩

/-- The function `zstd_decompress` (lines 36-83).  The sum
`bufsiz + sizeof (bufsiz) + sizeof (cookie)` of line 47 has the type
`size_t` and is taken modulo `2 ^ size_bits`. -/
def zstd_decompress (P : platform) (L : zstd_lib) (debug : Bool)
    (vars : zstd_static) (s_start : Nat → byte) (d_start : List byte)
    (s_len d_len : Nat) (_n : Int) : Except zio_fault zstd_out :=
  let src := s_start
  let bufsiz := htonl P (load_uint32 P src 0)
  let _cookie := htonl P (load_uint32 P src 4)
  match ASSERT debug 44 (decide (d_len ≥ s_len)) with
  | some f => Except.error f
  | none =>
  if (bufsiz + 4 + 4) % 2 ^ P.size_bits > s_len then
    Except.ok ⟨1, d_start, vars, [], [zstd_message.header_failed]⟩
  else
    match vars.dctxbuf with
    | none =>
      let dctxsize := L.ZSTD_estimateDCtxSize
      match L.malloc (dctxsize + 8) with
      | none =>
        Except.ok ⟨1, d_start, ⟨none, dctxsize⟩,
          [zstd_call.ZSTD_estimateDCtxSize, zstd_call.malloc (dctxsize + 8)],
          [zstd_message.allocation_failed]⟩
      | some p =>
        Except.ok (zstd_decompress_dctx L ⟨some (roundup2 p 8), dctxsize⟩
          (roundup2 p 8)
          [zstd_call.ZSTD_estimateDCtxSize, zstd_call.malloc (dctxsize + 8)]
          src d_start d_len bufsiz)
    | some buf =>
      Except.ok (zstd_decompress_dctx L vars buf [] src d_start d_len bufsiz)

end boot

/-! ## The specification's reference definitions -/

/-- The method resolution in the words of the specification: the working
value is `parent` if `child` is `INHERIT` and `child` otherwise; a working
value `ON` becomes the fast-codec identifier when the feature is active and
the legacy default identifier when it is not; any other working value is the
result. -/
def resolveMethod_spec (K : zio_compress_h) (lz4_active : Bool)
    (child parent : Nat) : Nat :=
  let w := if child = ZIO_COMPRESS_INHERIT then parent else child
  if w = ZIO_COMPRESS_ON then
    (if lz4_active then K.ZIO_COMPRESS_LZ4_ON_VALUE
     else K.ZIO_COMPRESS_LEGACY_ON_VALUE)
  else w

/-- The two values the header gives for `on` are concrete methods: "the
concrete fast-codec identifier" and "the legacy default concrete
identifier" are rows of the table other than `inherit` and `on`. -/
def on_values_concrete (K : zio_compress_h) : Prop :=
  (K.ZIO_COMPRESS_LZ4_ON_VALUE < ZIO_COMPRESS_FUNCTIONS ∧
    K.ZIO_COMPRESS_LZ4_ON_VALUE ≠ ZIO_COMPRESS_INHERIT ∧
    K.ZIO_COMPRESS_LZ4_ON_VALUE ≠ ZIO_COMPRESS_ON) ∧
  (K.ZIO_COMPRESS_LEGACY_ON_VALUE < ZIO_COMPRESS_FUNCTIONS ∧
    K.ZIO_COMPRESS_LEGACY_ON_VALUE ≠ ZIO_COMPRESS_INHERIT ∧
    K.ZIO_COMPRESS_LEGACY_ON_VALUE ≠ ZIO_COMPRESS_ON)

instance on_values_concrete_decidable (K : zio_compress_h) :
    Decidable (on_values_concrete K) := by
  unfold on_values_concrete
  infer_instance

/-- The four bytes at `off`, read as a big-endian 32-bit integer: the way the
specification reads the two fields of the frame header. -/
def big_endian_uint32 (src : Nat → byte) (off : Nat) : Nat :=
  (src off).val * 16777216 + (src (off + 1)).val * 65536
    + (src (off + 2)).val * 256 + (src (off + 3)).val

/-- The decompression context is obtained in the buffer `buf`: either
`dctxbuf` is set from an earlier call, or it is null and `malloc` gives a
buffer, rounded up to `buf`; and `ZSTD_initStaticDCtx` gives a context. -/
def dctx_obtained (L : boot.zstd_lib) (vars : boot.zstd_static) (buf : Nat) : Prop :=
  (vars.dctxbuf = some buf ∧ L.ZSTD_initStaticDCtx buf vars.dctxsize = true) ∨
  (vars.dctxbuf = none ∧
    (∃ p, L.malloc (L.ZSTD_estimateDCtxSize + 8) = some p ∧ buf = boot.roundup2 p 8) ∧
    L.ZSTD_initStaticDCtx buf L.ZSTD_estimateDCtxSize = true)

/-! ## Sample inputs -/

/-- A header in which `on` stands for lz4 or lzjb, the level sentinels are
`0` (inherit) and `250` (default) out of `252` levels, and the default zstd
level is `3`. -/
def sample_header : zio_compress_h :=
  ⟨ZIO_COMPRESS_LZ4, ZIO_COMPRESS_LZJB, 0, 250, 252, 3⟩

/-- A pool in which every feature has the given activation state. -/
def sample_spa (active : Bool) : spa_t := ⟨fun _ => active⟩

/-- A logical buffer that starts with the given bytes and is zero after
them. -/
def sample_abd (bs : List byte) : abd_t := ⟨fun i => bs.getD i 0⟩

/-- The source without its trailing zero bytes. -/
def trim_zeros (bs : List byte) : List byte :=
  (bs.reverse.dropWhile (fun b => b == 0)).reverse

/-- A toy codec, used for every slot of the table: compression drops the
trailing zero bytes of the source and reports the number of bytes left;
decompression pads its source with zero bytes up to the destination length
(and fails if the source is longer than that); the level-aware functions
report level `3`. -/
def trim_codecs : zio_codecs :=
  ⟨fun _ src _ _ _ _ => ((trim_zeros src).length, trim_zeros src),
   fun _ src _ s_len d_len _ =>
     (if s_len ≤ d_len then 0 else 1,
      src.take s_len ++ List.replicate (d_len - s_len) 0),
   fun _ src _ s_len d_len _ =>
     (if s_len ≤ d_len then 0 else 1,
      src.take s_len ++ List.replicate (d_len - s_len) 0, 3),
   fun _ _ _ _ => (0, 3)⟩

/-- A little-endian platform with a `size_t` of 64 bits. -/
def sample_lp64 : boot.platform := ⟨true, 64⟩

/-- A little-endian platform with a `size_t` of 32 bits. -/
def sample_ilp32 : boot.platform := ⟨true, 32⟩

/-- A toy library for the boot decoder: a context of 64 bytes, an allocator
that returns the address 4100, a context set-up that succeeds, and a codec
for frames that hold a count `n` in their first byte and `n` bytes after it,
which it copies to the start of the destination; the codec reports `n`, or
the error code `2 ^ 32 - 70` when the frame does not fit the source size or
the destination capacity.  Error codes are the values from `2 ^ 32 - 120`
on. -/
def sample_zstd_lib : boot.zstd_lib :=
  ⟨64, fun _ => some 4100, fun _ _ => true,
   fun dst cap src size =>
     if 1 + (src 0).val ≤ size ∧ (src 0).val ≤ cap then
       ((src 0).val,
        (List.range (src 0).val).map (fun i => src (1 + i)) ++ dst.drop (src 0).val)
     else (4294967226, dst),
   fun r => decide (4294967176 ≤ r)⟩

/-! ## Properties of the resolvers -/

theorem ASSERT_true (debug : Bool) (line : Nat) : ASSERT debug line true = none := by
  cases debug <;> rfl

theorem ASSERT_release (line : Nat) (cond : Bool) : ASSERT false line cond = none := rfl

theorem ASSERT_of (debug : Bool) (line : Nat) (p : Prop) [Decidable p] (h : p) :
    ASSERT debug line (decide p) = none := by
  rw [decide_eq_true h]
  exact ASSERT_true debug line

/-- C1: for a child level and a parent level below `ZIO_ZSTDLVL_LEVELS`, the
parent not being `ZIO_ZSTDLVL_INHERIT`, `zio_complevel_select` returns the
parent when the child is `ZIO_ZSTDLVL_INHERIT` and the child otherwise, and
the pool passed does not change the result. -/
theorem zio_complevel_select_inherits (K : zio_compress_h) (debug : Bool)
    (spa : spa_t) (child parent : Int)
    (hc : child < K.ZIO_ZSTDLVL_LEVELS) (hp : parent < K.ZIO_ZSTDLVL_LEVELS)
    (hpi : parent ≠ K.ZIO_ZSTDLVL_INHERIT) :
    (child = K.ZIO_ZSTDLVL_INHERIT →
      zio_complevel_select K debug spa child parent = Except.ok parent) ∧
    (child ≠ K.ZIO_ZSTDLVL_INHERIT →
      zio_complevel_select K debug spa child parent = Except.ok child) ∧
    (∀ spa2 : spa_t, zio_complevel_select K debug spa2 child parent =
      zio_complevel_select K debug spa child parent) := by
  have key : ∀ s : spa_t, zio_complevel_select K debug s child parent =
      Except.ok (if child = K.ZIO_ZSTDLVL_INHERIT then parent else child) := by
    intro s
    simp only [zio_complevel_select, ASSERT_of debug _ _ hc, ASSERT_of debug _ _ hp,
      ASSERT_of debug _ _ hpi]
  refine ⟨fun h => ?_, fun h => ?_, fun s => ?_⟩
  · rw [key, if_pos h]
  · rw [key, if_neg h]
  · rw [key, key]

theorem zio_complevel_select_inherits_witness :
    ((3 : Int) < sample_header.ZIO_ZSTDLVL_LEVELS ∧
      (3 : Int) ≠ sample_header.ZIO_ZSTDLVL_INHERIT) ∧
    zio_complevel_select sample_header true (sample_spa false) 0 3 = Except.ok 3 ∧
    zio_complevel_select sample_header true (sample_spa false) 3 3 = Except.ok 3 :=
  ⟨by decide,
   (zio_complevel_select_inherits sample_header true (sample_spa false) 0 3
      (by decide) (by decide) (by decide)).1 rfl,
   (zio_complevel_select_inherits sample_header true (sample_spa false) 3 3
      (by decide) (by decide) (by decide)).2.1 (by decide)⟩

theorem zio_compress_select_eq (K : zio_compress_h) (debug : Bool) (spa : spa_t)
    (child parent : Nat) (hc : child < ZIO_COMPRESS_FUNCTIONS)
    (hp : parent < ZIO_COMPRESS_FUNCTIONS) (hpi : parent ≠ ZIO_COMPRESS_INHERIT) :
    zio_compress_select K debug spa child parent =
      Except.ok
        (if (if child = ZIO_COMPRESS_INHERIT then parent else child) = ZIO_COMPRESS_ON then
          (if spa_feature_is_active spa spa_feature_t.SPA_FEATURE_LZ4_COMPRESS = true then
            K.ZIO_COMPRESS_LZ4_ON_VALUE
          else K.ZIO_COMPRESS_LEGACY_ON_VALUE)
        else (if child = ZIO_COMPRESS_INHERIT then parent else child)) := by
  simp only [zio_compress_select, ASSERT_of debug _ _ hc, ASSERT_of debug _ _ hp,
    ASSERT_of debug _ _ hpi]

/-- C2: for a child method and a parent method below
`ZIO_COMPRESS_FUNCTIONS`, the parent not being `INHERIT`,
`zio_compress_select` returns what the reference definition gives for the
activation state of the lz4 feature: with `w` the parent if the child is
`INHERIT` and the child otherwise, the result is `w` in any pool when `w` is
not `ON`; and `(INHERIT, ON)` resolves to `ZIO_COMPRESS_LZ4_ON_VALUE` when the
feature is active and to `ZIO_COMPRESS_LEGACY_ON_VALUE` when it is not. -/
theorem zio_compress_select_refines (K : zio_compress_h) (debug : Bool)
    (spa : spa_t) (child parent : Nat) (hc : child < ZIO_COMPRESS_FUNCTIONS)
    (hp : parent < ZIO_COMPRESS_FUNCTIONS) (hpi : parent ≠ ZIO_COMPRESS_INHERIT) :
    zio_compress_select K debug spa child parent =
      Except.ok (resolveMethod_spec K
        (spa_feature_is_active spa spa_feature_t.SPA_FEATURE_LZ4_COMPRESS)
        child parent) ∧
    ((if child = ZIO_COMPRESS_INHERIT then parent else child) ≠ ZIO_COMPRESS_ON →
      ∀ spa2 : spa_t, zio_compress_select K debug spa2 child parent =
        Except.ok (if child = ZIO_COMPRESS_INHERIT then parent else child)) ∧
    (spa_feature_is_active spa spa_feature_t.SPA_FEATURE_LZ4_COMPRESS = true →
      zio_compress_select K debug spa ZIO_COMPRESS_INHERIT ZIO_COMPRESS_ON =
        Except.ok K.ZIO_COMPRESS_LZ4_ON_VALUE) ∧
    (spa_feature_is_active spa spa_feature_t.SPA_FEATURE_LZ4_COMPRESS = false →
      zio_compress_select K debug spa ZIO_COMPRESS_INHERIT ZIO_COMPRESS_ON =
        Except.ok K.ZIO_COMPRESS_LEGACY_ON_VALUE) := by
  refine ⟨?_, fun hw spa2 => ?_, fun ha => ?_, fun ha => ?_⟩
  · rw [zio_compress_select_eq K debug spa child parent hc hp hpi]
    simp only [resolveMethod_spec]
  · rw [zio_compress_select_eq K debug spa2 child parent hc hp hpi, if_neg hw]
  · rw [zio_compress_select_eq K debug spa _ _ (by decide) (by decide) (by decide), ha]
    rfl
  · rw [zio_compress_select_eq K debug spa _ _ (by decide) (by decide) (by decide), ha]
    rfl

theorem zio_compress_select_refines_witness :
    (ZIO_COMPRESS_INHERIT < ZIO_COMPRESS_FUNCTIONS ∧
      ZIO_COMPRESS_ON < ZIO_COMPRESS_FUNCTIONS ∧
      ZIO_COMPRESS_ON ≠ ZIO_COMPRESS_INHERIT) ∧
    zio_compress_select sample_header true (sample_spa false)
      ZIO_COMPRESS_INHERIT ZIO_COMPRESS_ON = Except.ok ZIO_COMPRESS_LZJB :=
  ⟨by decide,
   (zio_compress_select_refines sample_header true (sample_spa false)
      ZIO_COMPRESS_INHERIT ZIO_COMPRESS_ON (by decide) (by decide) (by decide)).1⟩

/-- C3: for a child method and a parent method below
`ZIO_COMPRESS_FUNCTIONS`, the parent not being `INHERIT`, and a header whose
two values for `on` are concrete methods, `zio_compress_select` returns a
value that is neither `INHERIT` nor `ON`; resolving that value again as a
child, in any pool and against any such parent, returns it unchanged. -/
theorem zio_compress_select_concrete (K : zio_compress_h) (debug : Bool)
    (spa : spa_t) (child parent : Nat) (hK : on_values_concrete K)
    (hc : child < ZIO_COMPRESS_FUNCTIONS) (hp : parent < ZIO_COMPRESS_FUNCTIONS)
    (hpi : parent ≠ ZIO_COMPRESS_INHERIT) :
    ∃ r : Nat, zio_compress_select K debug spa child parent = Except.ok r ∧
      r ≠ ZIO_COMPRESS_INHERIT ∧ r ≠ ZIO_COMPRESS_ON ∧
      ∀ (spa2 : spa_t) (parent2 : Nat), parent2 < ZIO_COMPRESS_FUNCTIONS →
        parent2 ≠ ZIO_COMPRESS_INHERIT →
        zio_compress_select K debug spa2 r parent2 = Except.ok r := by
  obtain ⟨⟨hl1, hl2, hl3⟩, ⟨hg1, hg2, hg3⟩⟩ := hK
  have fix : ∀ r : Nat, r < ZIO_COMPRESS_FUNCTIONS → r ≠ ZIO_COMPRESS_INHERIT →
      r ≠ ZIO_COMPRESS_ON →
      ∀ (spa2 : spa_t) (parent2 : Nat), parent2 < ZIO_COMPRESS_FUNCTIONS →
        parent2 ≠ ZIO_COMPRESS_INHERIT →
        zio_compress_select K debug spa2 r parent2 = Except.ok r := by
    intro r h1 h2 h3 spa2 parent2 hp2 hpi2
    rw [zio_compress_select_eq K debug spa2 r parent2 h1 hp2 hpi2, if_neg h2, if_neg h3]
  rw [zio_compress_select_eq K debug spa child parent hc hp hpi]
  by_cases hci : child = ZIO_COMPRESS_INHERIT
  · rw [if_pos hci]
    by_cases hpo : parent = ZIO_COMPRESS_ON
    · rw [if_pos hpo]
      by_cases ha : spa_feature_is_active spa spa_feature_t.SPA_FEATURE_LZ4_COMPRESS = true
      · rw [if_pos ha]
        exact ⟨_, rfl, hl2, hl3, fix _ hl1 hl2 hl3⟩
      · rw [if_neg ha]
        exact ⟨_, rfl, hg2, hg3, fix _ hg1 hg2 hg3⟩
    · rw [if_neg hpo]
      exact ⟨_, rfl, hpi, hpo, fix _ hp hpi hpo⟩
  · rw [if_neg hci]
    by_cases hco : child = ZIO_COMPRESS_ON
    · rw [if_pos hco]
      by_cases ha : spa_feature_is_active spa spa_feature_t.SPA_FEATURE_LZ4_COMPRESS = true
      · rw [if_pos ha]
        exact ⟨_, rfl, hl2, hl3, fix _ hl1 hl2 hl3⟩
      · rw [if_neg ha]
        exact ⟨_, rfl, hg2, hg3, fix _ hg1 hg2 hg3⟩
    · rw [if_neg hco]
      exact ⟨_, rfl, hci, hco, fix _ hc hci hco⟩

theorem zio_compress_select_concrete_witness :
    on_values_concrete sample_header ∧
    ∃ r : Nat, zio_compress_select sample_header true (sample_spa true)
        ZIO_COMPRESS_ON ZIO_COMPRESS_GZIP_6 = Except.ok r ∧
      r ≠ ZIO_COMPRESS_INHERIT ∧ r ≠ ZIO_COMPRESS_ON ∧
      ∀ (spa2 : spa_t) (parent2 : Nat), parent2 < ZIO_COMPRESS_FUNCTIONS →
        parent2 ≠ ZIO_COMPRESS_INHERIT →
        zio_compress_select sample_header true spa2 r parent2 = Except.ok r :=
  ⟨by decide,
   zio_compress_select_concrete sample_header true (sample_spa true)
      ZIO_COMPRESS_ON ZIO_COMPRESS_GZIP_6 (by decide) (by decide) (by decide)
      (by decide)⟩

/-! ## Properties of the zero scan -/

theorem zio_compress_zeroed_loop_succ (data : Nat → byte) (n k : Nat) :
    zio_compress_zeroed_loop data (n + 1) k =
      if load_uint64 data k ≠ 0 then (1, [k])
      else ((zio_compress_zeroed_loop data n (k + 1)).1,
        k :: (zio_compress_zeroed_loop data n (k + 1)).2) := rfl

theorem zio_compress_zeroed_loop_eq_zero (data : Nat → byte) (n k : Nat) :
    (zio_compress_zeroed_loop data n k).1 = 0 ↔
      ∀ j, j < n → load_uint64 data (k + j) = 0 := by
  induction n generalizing k with
  | zero => simp [zio_compress_zeroed_loop]
  | succ n ih =>
    rw [zio_compress_zeroed_loop_succ]
    by_cases hw : load_uint64 data k = 0
    · rw [if_neg (not_not.mpr hw)]
      show (zio_compress_zeroed_loop data n (k + 1)).1 = 0 ↔ _
      rw [ih (k + 1)]
      constructor
      · intro h j hj
        cases j with
        | zero => simpa using hw
        | succ j =>
          have := h j (by omega)
          rw [show k + (j + 1) = k + 1 + j by omega]
          exact this
      · intro h j hj
        have := h (j + 1) (by omega)
        rw [show k + 1 + j = k + (j + 1) by omega]
        exact this
    · rw [if_pos hw]
      constructor
      · intro h
        exact absurd h (show ¬ (1 : Int) = 0 by decide)
      · intro h
        exact absurd (by simpa using h 0 (by omega)) hw

theorem zio_compress_zeroed_cb_eq_zero (data : Nat → byte) (len : Nat) :
    (zio_compress_zeroed_cb data len).1 = 0 ↔
      ∀ k, 8 * k < len → load_uint64 data k = 0 := by
  unfold zio_compress_zeroed_cb
  rw [zio_compress_zeroed_loop_eq_zero]
  constructor
  · intro h k hk
    have := h k (by omega)
    simpa using this
  · intro h j hj
    have := h j (by omega)
    simpa using this

theorem abd_iterate_zeroed_eq_zero (src : abd_t) (s_len : Nat) :
    abd_iterate_func src 0 s_len zio_compress_zeroed_cb = 0 ↔
      ∀ k, 8 * k < s_len → load_uint64 src.abd_buf k = 0 := by
  unfold abd_iterate_func
  rw [zio_compress_zeroed_cb_eq_zero]
  simp only [Nat.zero_add]

theorem abd_iterate_zeroed_ne_zero (src : abd_t) (s_len : Nat)
    (h : ∃ k, 8 * k < s_len ∧ load_uint64 src.abd_buf k ≠ 0) :
    ¬ abd_iterate_func src 0 s_len zio_compress_zeroed_cb = 0 := by
  rw [abd_iterate_zeroed_eq_zero]
  obtain ⟨k, hk, hw⟩ := h
  exact fun hz => hw (hz k hk)

/-! ## Properties of the compression driver -/

theorem zio_compress_data_asserts (K : zio_compress_h) (debug : Bool) (c : Nat)
    (h : debug = true → c < ZIO_COMPRESS_FUNCTIONS ∧
      (c = ZIO_COMPRESS_EMPTY ∨ has_ci_compress K c = true)) :
    ASSERT debug 131 (decide (c < ZIO_COMPRESS_FUNCTIONS)) = none ∧
    ASSERT debug 132 (decide (c = ZIO_COMPRESS_EMPTY) || has_ci_compress K c) = none := by
  cases debug with
  | false => exact ⟨rfl, rfl⟩
  | true =>
    obtain ⟨h1, h2⟩ := h rfl
    refine ⟨ASSERT_of true _ _ h1, ?_⟩
    have : (decide (c = ZIO_COMPRESS_EMPTY) || has_ci_compress K c) = true := by
      rcases h2 with h2 | h2
      · simp [h2]
      · simp [h2]
    rw [this]
    rfl

theorem zio_compress_data_of_zero (K : zio_compress_h) (E : zio_codecs)
    (debug : Bool) (c : Nat) (src : abd_t) (dst : List byte) (s_len : Nat)
    (zp : Option zio_prop_t)
    (hpre : debug = true → c < ZIO_COMPRESS_FUNCTIONS ∧
      (c = ZIO_COMPRESS_EMPTY ∨ has_ci_compress K c = true))
    (hz : abd_iterate_func src 0 s_len zio_compress_zeroed_cb = 0) :
    zio_compress_data K E debug c src dst s_len zp = Except.ok ⟨0, dst, []⟩ := by
  obtain ⟨h1, h2⟩ := zio_compress_data_asserts K debug c hpre
  simp only [zio_compress_data, h1, h2, hz, if_true]

theorem sample_abd_nil_zero (k : Nat) : load_uint64 (sample_abd []).abd_buf k = 0 := by
  simp [load_uint64, sample_abd]

/-- C4: when every 64-bit word of the source is zero, `zio_compress_data`
returns 0, leaves `dst` alone and calls no codec, whatever the method
(`EMPTY` and zstd with any block properties included): in a release build
for every value of `c`, in a debug build for every `c` that passes the two
assertions at the head of the function. -/
theorem zio_compress_data_all_zero (K : zio_compress_h) (E : zio_codecs)
    (debug : Bool) (c : Nat) (src : abd_t) (dst : List byte) (s_len : Nat)
    (zp : Option zio_prop_t)
    (hpre : debug = true → c < ZIO_COMPRESS_FUNCTIONS ∧
      (c = ZIO_COMPRESS_EMPTY ∨ has_ci_compress K c = true))
    (hz : ∀ k, 8 * k < s_len → load_uint64 src.abd_buf k = 0) :
    zio_compress_data K E debug c src dst s_len zp = Except.ok ⟨0, dst, []⟩ :=
  zio_compress_data_of_zero K E debug c src dst s_len zp hpre
    ((abd_iterate_zeroed_eq_zero src s_len).mpr hz)

theorem zio_compress_data_all_zero_witness :
    (∀ k, 8 * k < 16 → load_uint64 (sample_abd []).abd_buf k = 0) ∧
    zio_compress_data sample_header trim_codecs true ZIO_COMPRESS_EMPTY
      (sample_abd []) [] 16 none = Except.ok ⟨0, [], []⟩ ∧
    zio_compress_data sample_header trim_codecs true ZIO_COMPRESS_ZSTD
      (sample_abd []) [] 16 (some ⟨sample_header.ZIO_ZSTDLVL_INHERIT⟩) =
        Except.ok ⟨0, [], []⟩ :=
  ⟨fun k _ => sample_abd_nil_zero k,
   zio_compress_data_all_zero sample_header trim_codecs true ZIO_COMPRESS_EMPTY
     (sample_abd []) [] 16 none (fun _ => by decide) (fun k _ => sample_abd_nil_zero k),
   zio_compress_data_all_zero sample_header trim_codecs true ZIO_COMPRESS_ZSTD
     (sample_abd []) [] 16 (some ⟨sample_header.ZIO_ZSTDLVL_INHERIT⟩)
     (fun _ => by decide) (fun k _ => sample_abd_nil_zero k)⟩

theorem zio_compress_data_of_empty (K : zio_compress_h) (E : zio_codecs)
    (debug : Bool) (c : Nat) (src : abd_t) (dst : List byte) (s_len : Nat)
    (zp : Option zio_prop_t) (hc : c = ZIO_COMPRESS_EMPTY)
    (hnz : ¬ abd_iterate_func src 0 s_len zio_compress_zeroed_cb = 0) :
    zio_compress_data K E debug c src dst s_len zp = Except.ok ⟨s_len, dst, []⟩ := by
  obtain ⟨h1, h2⟩ := zio_compress_data_asserts K debug c
    (fun _ => ⟨by rw [hc]; decide, Or.inl hc⟩)
  simp only [zio_compress_data, h1, h2, hnz, if_false, if_pos hc]

/-- C5: for the method `EMPTY` and a source with a non-zero 64-bit word,
`zio_compress_data` returns `s_len`, leaves `dst` alone and calls no codec
function. -/
theorem zio_compress_data_empty (K : zio_compress_h) (E : zio_codecs)
    (debug : Bool) (src : abd_t) (dst : List byte) (s_len : Nat)
    (zp : Option zio_prop_t)
    (hnz : ∃ k, 8 * k < s_len ∧ load_uint64 src.abd_buf k ≠ 0) :
    zio_compress_data K E debug ZIO_COMPRESS_EMPTY src dst s_len zp =
      Except.ok ⟨s_len, dst, []⟩ ∧
    (zio_compress_table K)[ZIO_COMPRESS_EMPTY]?.map (fun i => i.ci_compress) =
      some none := by
  exact ⟨zio_compress_data_of_empty K E debug _ src dst s_len zp rfl
    (abd_iterate_zeroed_ne_zero src s_len hnz), rfl⟩

theorem zio_compress_data_empty_witness :
    (∃ k, 8 * k < 16 ∧ load_uint64 (sample_abd [0, 7]).abd_buf k ≠ 0) ∧
    zio_compress_data sample_header trim_codecs true ZIO_COMPRESS_EMPTY
      (sample_abd [0, 7]) [] 16 none = Except.ok ⟨16, [], []⟩ :=
  ⟨⟨0, by decide, by decide⟩,
   (zio_compress_data_empty sample_header trim_codecs true (sample_abd [0, 7]) [] 16
     none ⟨0, by decide, by decide⟩).1⟩

theorem ASSERT_cases (debug : Bool) (line : Nat) (cond : Bool) :
    ASSERT debug line cond = none ∨
      ASSERT debug line cond = some (zio_fault.assertion line) := by
  cases debug <;> cases cond <;> simp [ASSERT]

theorem zio_compress_table_length (K : zio_compress_h) :
    (zio_compress_table K).length = ZIO_COMPRESS_FUNCTIONS := rfl

theorem zio_compress_table_lt (K : zio_compress_h) (c : Nat)
    (ci : zio_compress_info_t) (hci : (zio_compress_table K)[c]? = some ci) :
    c < ZIO_COMPRESS_FUNCTIONS := by
  rw [← zio_compress_table_length K]
  by_contra h
  rw [List.getElem?_eq_none (Nat.le_of_not_lt h)] at hci
  exact absurd hci (by simp)

theorem zio_compress_table_empty (K : zio_compress_h) (ci : zio_compress_info_t)
    (hci : (zio_compress_table K)[ZIO_COMPRESS_EMPTY]? = some ci) :
    ci.ci_compress = none := by
  simp [zio_compress_table, ZIO_COMPRESS_EMPTY] at hci
  rw [← hci]

/-- The driver on a source with a non-zero word and a method whose row has a
compress function: the level resolution of lines 147-161 decides between a
fault, the early `return (s_len)` and the codec call followed by the ratio
check. -/
theorem zio_compress_data_of_codec (K : zio_compress_h) (E : zio_codecs)
    (debug : Bool) (c : Nat) (src : abd_t) (dst : List byte) (s_len : Nat)
    (zp : Option zio_prop_t) (ci : zio_compress_info_t) (fn : zio_compress_func)
    (hci : (zio_compress_table K)[c]? = some ci) (hfn : ci.ci_compress = some fn)
    (hnz : ¬ abd_iterate_func src 0 s_len zio_compress_zeroed_cb = 0) :
    zio_compress_data K E debug c src dst s_len zp =
      match zio_compress_data_complevel K debug c ci zp with
      | Except.error f => Except.error f
      | Except.ok none => Except.ok ⟨s_len, dst, []⟩
      | Except.ok (some lvl) =>
        if s_len - (s_len >>> 3) <
            (E.run_compress fn (abd_borrow_buf_copy src s_len) dst s_len
              (s_len - (s_len >>> 3)) lvl).1 then
          Except.ok ⟨s_len,
            (E.run_compress fn (abd_borrow_buf_copy src s_len) dst s_len
              (s_len - (s_len >>> 3)) lvl).2,
            [zio_codec_call.compress fn (abd_borrow_buf_copy src s_len) s_len
              (s_len - (s_len >>> 3)) lvl]⟩
        else
          Except.ok ⟨(E.run_compress fn (abd_borrow_buf_copy src s_len) dst s_len
              (s_len - (s_len >>> 3)) lvl).1,
            (E.run_compress fn (abd_borrow_buf_copy src s_len) dst s_len
              (s_len - (s_len >>> 3)) lvl).2,
            [zio_codec_call.compress fn (abd_borrow_buf_copy src s_len) s_len
              (s_len - (s_len >>> 3)) lvl]⟩ := by
  have hlt := zio_compress_table_lt K c ci hci
  have hne : ¬ c = ZIO_COMPRESS_EMPTY := by
    intro h
    rw [h] at hci
    rw [zio_compress_table_empty K ci hci] at hfn
    exact absurd hfn (by simp)
  have hhas : has_ci_compress K c = true := by
    simp [has_ci_compress, hci, hfn]
  obtain ⟨h1, h2⟩ := zio_compress_data_asserts K debug c (fun _ => ⟨hlt, Or.inr hhas⟩)
  simp only [zio_compress_data, h1, h2, hnz, if_false, if_neg hne, hci]
  cases hcl : zio_compress_data_complevel K debug c ci zp with
  | error f => rfl
  | ok o =>
    cases o with
    | none => rfl
    | some lvl =>
      simp only [hfn, gt_iff_lt]
      split_ifs with h
      · rfl
      · rw [ASSERT_of debug 171 _ (Nat.le_of_not_lt h)]

/-- C6, as the code has it: for a method whose row has a compress function,
a source with a non-zero word and a codec call that reports a length above
`s_len - (s_len >> 3)`, `zio_compress_data` returns `s_len`; a reported
length equal to `s_len - (s_len >> 3)` is returned as it is. -/
theorem zio_compress_data_ratio (K : zio_compress_h) (E : zio_codecs)
    (debug : Bool) (c : Nat) (src : abd_t) (dst : List byte) (s_len : Nat)
    (zp : Option zio_prop_t) (ci : zio_compress_info_t) (fn : zio_compress_func)
    (lvl : Int)
    (hci : (zio_compress_table K)[c]? = some ci) (hfn : ci.ci_compress = some fn)
    (hnz : ∃ k, 8 * k < s_len ∧ load_uint64 src.abd_buf k ≠ 0)
    (hlvl : zio_compress_data_complevel K debug c ci zp = Except.ok (some lvl)) :
    (s_len - s_len / 8 <
        (E.run_compress fn (abd_borrow_buf_copy src s_len) dst s_len
          (s_len - s_len / 8) lvl).1 →
      zio_compress_data K E debug c src dst s_len zp =
        Except.ok ⟨s_len,
          (E.run_compress fn (abd_borrow_buf_copy src s_len) dst s_len
            (s_len - s_len / 8) lvl).2,
          [zio_codec_call.compress fn (abd_borrow_buf_copy src s_len) s_len
            (s_len - s_len / 8) lvl]⟩) ∧
    ((E.run_compress fn (abd_borrow_buf_copy src s_len) dst s_len
          (s_len - s_len / 8) lvl).1 = s_len - s_len / 8 →
      zio_compress_data K E debug c src dst s_len zp =
        Except.ok ⟨s_len - s_len / 8,
          (E.run_compress fn (abd_borrow_buf_copy src s_len) dst s_len
            (s_len - s_len / 8) lvl).2,
          [zio_codec_call.compress fn (abd_borrow_buf_copy src s_len) s_len
            (s_len - s_len / 8) lvl]⟩) := by
  have hsh : s_len >>> 3 = s_len / 8 := by
    rw [Nat.shiftRight_eq_div_pow]
  have key := zio_compress_data_of_codec K E debug c src dst s_len zp ci fn hci hfn
    (abd_iterate_zeroed_ne_zero src s_len hnz)
  rw [hlvl, hsh] at key
  refine ⟨fun h => ?_, fun h => ?_⟩
  · rw [key]
    simp only [if_pos h]
  · rw [key]
    simp only [h, lt_irrefl, if_false]

theorem zio_compress_data_ratio_witness :
    (∃ k, 8 * k < 8 ∧ load_uint64 (sample_abd [1, 1, 1, 1, 1, 1, 1, 1]).abd_buf k ≠ 0) ∧
    zio_compress_data sample_header trim_codecs true ZIO_COMPRESS_LZJB
      (sample_abd [1, 1, 1, 1, 1, 1, 1, 1]) [] 8 none =
        Except.ok ⟨8, [1, 1, 1, 1, 1, 1, 1, 1],
          [zio_codec_call.compress lzjb_compress [1, 1, 1, 1, 1, 1, 1, 1] 8 7 0]⟩ :=
  ⟨⟨0, by decide, by decide⟩,
   (zio_compress_data_ratio sample_header trim_codecs true ZIO_COMPRESS_LZJB
     (sample_abd [1, 1, 1, 1, 1, 1, 1, 1]) [] 8 none
     ⟨"lzjb", 0, some lzjb_compress, some lzjb_decompress, none, none⟩
     lzjb_compress 0 rfl rfl ⟨0, by decide, by decide⟩ rfl).1 (by decide)⟩

/-- C6, counterexample to the claim as stated: with 8 source bytes the
target length is 7; a codec that reports 7 bytes, which is at least the
target length, has its 7 returned, not `s_len = 8`. -/
theorem zio_compress_data_ratio_boundary :
    (∃ k, 8 * k < 8 ∧ load_uint64 (sample_abd [1, 1, 1, 1, 1, 1, 1]).abd_buf k ≠ 0) ∧
    (trim_codecs.run_compress lzjb_compress
        (abd_borrow_buf_copy (sample_abd [1, 1, 1, 1, 1, 1, 1]) 8) [] 8 (8 - 8 / 8) 0).1
      ≥ 8 - 8 / 8 ∧
    zio_compress_data sample_header trim_codecs true ZIO_COMPRESS_LZJB
      (sample_abd [1, 1, 1, 1, 1, 1, 1]) [] 8 none =
        Except.ok ⟨7, [1, 1, 1, 1, 1, 1, 1],
          [zio_codec_call.compress lzjb_compress [1, 1, 1, 1, 1, 1, 1, 0] 8 7 0]⟩ ∧
    (7 : Nat) ≠ 8 :=
  ⟨⟨0, by decide, by decide⟩, by decide, by decide, by decide⟩

theorem zio_compress_data_complevel_fault (K : zio_compress_h) (debug : Bool)
    (c : Nat) (ci : zio_compress_info_t) (zp : Option zio_prop_t) (f : zio_fault)
    (h : zio_compress_data_complevel K debug c ci zp = Except.error f) :
    f ≠ zio_fault.assertion 171 := by
  unfold zio_compress_data_complevel at h
  by_cases hc : c = ZIO_COMPRESS_ZSTD
  · simp only [if_pos hc] at h
    rcases ASSERT_cases debug 150 zp.isSome with h150 | h150
    · rw [h150] at h
      cases zp with
      | none =>
        simp only [Except.error.injEq] at h
        rw [← h]
        decide
      | some p =>
        simp only at h
        by_cases hi : p.zp_complevel = K.ZIO_ZSTDLVL_INHERIT
        · simp only [if_pos hi] at h
          exact absurd h (by simp)
        · simp only [if_neg hi] at h
          rcases ASSERT_cases debug 160
            (decide ((if p.zp_complevel = K.ZIO_ZSTDLVL_DEFAULT then
              K.ZIO_ZSTD_LEVEL_DEFAULT else p.zp_complevel) ≠ K.ZIO_ZSTDLVL_INHERIT))
            with h160 | h160
          · rw [h160] at h
            exact absurd h (by simp)
          · rw [h160] at h
            simp only [Except.error.injEq] at h
            rw [← h]
            decide
    · rw [h150] at h
      simp only [Except.error.injEq] at h
      rw [← h]
      decide
  · simp only [if_neg hc] at h
    exact absurd h (by simp)

theorem zio_compress_data_complevel_ok (K : zio_compress_h) (debug : Bool)
    (c : Nat) (ci : zio_compress_info_t) (zp : Option zio_prop_t)
    (hzp : c = ZIO_COMPRESS_ZSTD → zp.isSome = true)
    (hK : K.ZIO_ZSTD_LEVEL_DEFAULT ≠ K.ZIO_ZSTDLVL_INHERIT) :
    ∃ o, zio_compress_data_complevel K debug c ci zp = Except.ok o := by
  unfold zio_compress_data_complevel
  by_cases hc : c = ZIO_COMPRESS_ZSTD
  · simp only [if_pos hc]
    have hs := hzp hc
    cases zp with
    | none => exact absurd hs (by simp)
    | some p =>
      rw [hs, ASSERT_true]
      simp only
      by_cases hi : p.zp_complevel = K.ZIO_ZSTDLVL_INHERIT
      · exact ⟨none, by simp only [if_pos hi]⟩
      · simp only [if_neg hi]
        have hne : (if p.zp_complevel = K.ZIO_ZSTDLVL_DEFAULT then
            K.ZIO_ZSTD_LEVEL_DEFAULT else p.zp_complevel) ≠ K.ZIO_ZSTDLVL_INHERIT := by
          split_ifs
          · exact hK
          · exact hi
        rw [ASSERT_of debug 160 _ hne]
        exact ⟨_, rfl⟩
  · exact ⟨some ci.ci_level, by simp only [if_neg hc]⟩

/-- Every outcome of the driver: a fault other than the assertion of line
171, or a value that is `s_len` or at most `s_len - (s_len >> 3)`. -/
theorem zio_compress_data_shape (K : zio_compress_h) (E : zio_codecs)
    (debug : Bool) (c : Nat) (src : abd_t) (dst : List byte) (s_len : Nat)
    (zp : Option zio_prop_t) :
    (∃ f, zio_compress_data K E debug c src dst s_len zp = Except.error f ∧
      f ≠ zio_fault.assertion 171) ∨
    (∃ r, zio_compress_data K E debug c src dst s_len zp = Except.ok r ∧
      (r.ret = s_len ∨ r.ret ≤ s_len - (s_len >>> 3))) := by
  rcases ASSERT_cases debug 131 (decide (c < ZIO_COMPRESS_FUNCTIONS)) with h1 | h1
  swap
  · exact Or.inl ⟨zio_fault.assertion 131, by simp only [zio_compress_data, h1],
      by decide⟩
  rcases ASSERT_cases debug 132
    (decide (c = ZIO_COMPRESS_EMPTY) || has_ci_compress K c) with h2 | h2
  swap
  · exact Or.inl ⟨zio_fault.assertion 132, by simp only [zio_compress_data, h1, h2],
      by decide⟩
  by_cases hz : abd_iterate_func src 0 s_len zio_compress_zeroed_cb = 0
  · exact Or.inr ⟨⟨0, dst, []⟩, by simp only [zio_compress_data, h1, h2, hz, if_true],
      Or.inr (Nat.zero_le _)⟩
  by_cases hce : c = ZIO_COMPRESS_EMPTY
  · exact Or.inr ⟨⟨s_len, dst, []⟩,
      by simp only [zio_compress_data, h1, h2, hz, if_false, if_pos hce], Or.inl rfl⟩
  cases hci : (zio_compress_table K)[c]? with
  | none =>
    exact Or.inl ⟨zio_fault.wild_read,
      by simp only [zio_compress_data, h1, h2, hz, if_false, if_neg hce, hci], by decide⟩
  | some ci =>
    cases hfn : ci.ci_compress with
    | none =>
      cases hcl : zio_compress_data_complevel K debug c ci zp with
      | error f =>
        exact Or.inl ⟨f,
          by simp only [zio_compress_data, h1, h2, hz, if_false, if_neg hce, hci, hcl],
          zio_compress_data_complevel_fault K debug c ci zp f hcl⟩
      | ok o =>
        cases o with
        | none =>
          exact Or.inr ⟨⟨s_len, dst, []⟩,
            by simp only [zio_compress_data, h1, h2, hz, if_false, if_neg hce, hci, hcl],
            Or.inl rfl⟩
        | some lvl =>
          exact Or.inl ⟨zio_fault.null_call,
            by simp only [zio_compress_data, h1, h2, hz, if_false, if_neg hce, hci, hcl, hfn],
            by decide⟩
    | some fn =>
      rw [zio_compress_data_of_codec K E debug c src dst s_len zp ci fn hci hfn hz]
      cases hcl : zio_compress_data_complevel K debug c ci zp with
      | error f =>
        exact Or.inl ⟨f, rfl, zio_compress_data_complevel_fault K debug c ci zp f hcl⟩
      | ok o =>
        cases o with
        | none => exact Or.inr ⟨⟨s_len, dst, []⟩, rfl, Or.inl rfl⟩
        | some lvl =>
          simp only
          split_ifs with h
          · exact Or.inr ⟨_, rfl, Or.inl rfl⟩
          · exact Or.inr ⟨_, rfl, Or.inr (Nat.le_of_not_lt h)⟩

theorem zio_compress_data_returns (K : zio_compress_h) (E : zio_codecs)
    (debug : Bool) (c : Nat) (src : abd_t) (dst : List byte) (s_len : Nat)
    (zp : Option zio_prop_t)
    (hc : c < ZIO_COMPRESS_FUNCTIONS)
    (hfn : c = ZIO_COMPRESS_EMPTY ∨ has_ci_compress K c = true)
    (hzp : c = ZIO_COMPRESS_ZSTD → zp.isSome = true)
    (hK : K.ZIO_ZSTD_LEVEL_DEFAULT ≠ K.ZIO_ZSTDLVL_INHERIT) :
    ∃ r, zio_compress_data K E debug c src dst s_len zp = Except.ok r := by
  by_cases hz : abd_iterate_func src 0 s_len zio_compress_zeroed_cb = 0
  · exact ⟨_, zio_compress_data_of_zero K E debug c src dst s_len zp
      (fun _ => ⟨hc, hfn⟩) hz⟩
  rcases hfn with hce | hhas
  · exact ⟨_, zio_compress_data_of_empty K E debug c src dst s_len zp hce hz⟩
  · unfold has_ci_compress at hhas
    cases hci : (zio_compress_table K)[c]? with
    | none =>
      rw [hci] at hhas
      exact absurd hhas (by simp)
    | some ci =>
      rw [hci] at hhas
      simp only at hhas
      cases hf : ci.ci_compress with
      | none =>
        rw [hf] at hhas
        exact absurd hhas (by simp)
      | some fn =>
        rw [zio_compress_data_of_codec K E debug c src dst s_len zp ci fn hci hf hz]
        obtain ⟨o, ho⟩ := zio_compress_data_complevel_ok K debug c ci zp hzp hK
        rw [ho]
        cases o with
        | none => exact ⟨_, rfl⟩
        | some lvl =>
          simp only
          split_ifs
          · exact ⟨_, rfl⟩
          · exact ⟨_, rfl⟩

/-- C7: whatever the method, the source, the block properties and the
codecs, `s_len >> 3` is at most `s_len`, so `s_len - (s_len >> 3)` does not
underflow; the assertion `c_len <= d_len` of line 171 does not fail; a value
returned by `zio_compress_data` is `s_len` or at most
`s_len - (s_len >> 3)`, and with that at most `s_len`; and a value is
returned whenever the method is one the function accepts, the properties are
there for zstd and the default level of the header is not the inherit
sentinel. -/
theorem zio_compress_data_bound (K : zio_compress_h) (E : zio_codecs)
    (debug : Bool) (c : Nat) (src : abd_t) (dst : List byte) (s_len : Nat)
    (zp : Option zio_prop_t) :
    s_len >>> 3 ≤ s_len ∧
    zio_compress_data K E debug c src dst s_len zp ≠
      Except.error (zio_fault.assertion 171) ∧
    (∀ r, zio_compress_data K E debug c src dst s_len zp = Except.ok r →
      (r.ret = s_len ∨ r.ret ≤ s_len - (s_len >>> 3)) ∧ r.ret ≤ s_len) ∧
    (c < ZIO_COMPRESS_FUNCTIONS →
      (c = ZIO_COMPRESS_EMPTY ∨ has_ci_compress K c = true) →
      (c = ZIO_COMPRESS_ZSTD → zp.isSome = true) →
      K.ZIO_ZSTD_LEVEL_DEFAULT ≠ K.ZIO_ZSTDLVL_INHERIT →
      ∃ r, zio_compress_data K E debug c src dst s_len zp = Except.ok r) := by
  have hsh : s_len >>> 3 ≤ s_len := by
    rw [Nat.shiftRight_eq_div_pow]
    exact Nat.div_le_self _ _
  refine ⟨hsh, ?_, ?_, zio_compress_data_returns K E debug c src dst s_len zp⟩
  · intro h
    rcases zio_compress_data_shape K E debug c src dst s_len zp with
      ⟨f, hf, hne⟩ | ⟨r, hr, _⟩
    · rw [hf] at h
      exact hne (Except.error.inj h)
    · rw [hr] at h
      exact absurd h (by simp)
  · intro r hr
    rcases zio_compress_data_shape K E debug c src dst s_len zp with
      ⟨f, hf, _⟩ | ⟨r2, hr2, hb⟩
    · rw [hf] at hr
      exact absurd hr (by simp)
    · rw [hr2] at hr
      have : r2 = r := Except.ok.inj hr
      subst this
      refine ⟨hb, ?_⟩
      rcases hb with hb | hb
      · omega
      · omega

theorem zio_compress_data_bound_witness :
    ∃ r, zio_compress_data sample_header trim_codecs true ZIO_COMPRESS_ZSTD
        (sample_abd [1, 2, 3]) [] 16 (some ⟨sample_header.ZIO_ZSTDLVL_DEFAULT⟩) =
          Except.ok r ∧
      (r.ret = 16 ∨ r.ret ≤ 16 - (16 >>> 3)) ∧ r.ret ≤ 16 := by
  have h := zio_compress_data_bound sample_header trim_codecs true ZIO_COMPRESS_ZSTD
    (sample_abd [1, 2, 3]) [] 16 (some ⟨sample_header.ZIO_ZSTDLVL_DEFAULT⟩)
  obtain ⟨r, hr⟩ := h.2.2.2 (by decide) (by decide) (fun _ => rfl) (by decide)
  exact ⟨r, hr, h.2.2.1 r hr⟩

/-- C8, as the code has it: a value `L` returned by `zio_compress_data` that
is not `s_len` satisfies `L + s_len / 8 <= s_len`, which gives
`8 * L <= 7 * s_len + s_len % 8`, and `8 * L <= 7 * s_len` when `s_len` is a
multiple of 8. -/
theorem zio_compress_data_saving (K : zio_compress_h) (E : zio_codecs)
    (debug : Bool) (c : Nat) (src : abd_t) (dst : List byte) (s_len : Nat)
    (zp : Option zio_prop_t) (r : zio_compress_out)
    (hr : zio_compress_data K E debug c src dst s_len zp = Except.ok r)
    (hne : r.ret ≠ s_len) :
    r.ret + s_len / 8 ≤ s_len ∧
    8 * r.ret ≤ 7 * s_len + s_len % 8 ∧
    (s_len % 8 = 0 → 8 * r.ret ≤ 7 * s_len) := by
  have hsh : s_len >>> 3 = s_len / 8 := by
    rw [Nat.shiftRight_eq_div_pow]
  rcases zio_compress_data_shape K E debug c src dst s_len zp with
    ⟨f, hf, _⟩ | ⟨r2, hr2, hb⟩
  · rw [hf] at hr
    exact absurd hr (by simp)
  · rw [hr2] at hr
    have : r2 = r := Except.ok.inj hr
    subst this
    rcases hb with hb | hb
    · exact absurd hb hne
    · rw [hsh] at hb
      refine ⟨?_, ?_, ?_⟩
      · omega
      · omega
      · intro h8
        omega

theorem zio_compress_data_saving_witness :
    zio_compress_data sample_header trim_codecs true ZIO_COMPRESS_LZ4
        (sample_abd [1, 2, 3]) [] 16 none =
      Except.ok ⟨3, [1, 2, 3],
        [zio_codec_call.compress lz4_compress
          [1, 2, 3, 0, 0, 0, 0, 0, 0, 0, 0, 0, 0, 0, 0, 0] 16 14 0]⟩ ∧
    (3 + 16 / 8 ≤ 16 ∧ 8 * 3 ≤ 7 * 16 + 16 % 8 ∧ (16 % 8 = 0 → 8 * 3 ≤ 7 * 16)) :=
  ⟨by decide,
   zio_compress_data_saving sample_header trim_codecs true ZIO_COMPRESS_LZ4
     (sample_abd [1, 2, 3]) [] 16 none
     ⟨3, [1, 2, 3],
        [zio_codec_call.compress lz4_compress
          [1, 2, 3, 0, 0, 0, 0, 0, 0, 0, 0, 0, 0, 0, 0, 0] 16 14 0]⟩
     (by decide) (by decide)⟩

/-- C8, counterexample to the claim as stated: with 9 source bytes the
target length is `9 - (9 >> 3) = 8`; a codec that reports 8 bytes has its 8
returned, which is not `s_len = 9`, and `8 * 8 = 64` exceeds `7 * 9 = 63`. -/
theorem zio_compress_data_saving_odd_length :
    (∃ k, 8 * k < 9 ∧ load_uint64 (sample_abd [1, 1, 1, 1, 1, 1, 1, 1]).abd_buf k ≠ 0) ∧
    zio_compress_data sample_header trim_codecs true ZIO_COMPRESS_LZJB
      (sample_abd [1, 1, 1, 1, 1, 1, 1, 1]) [] 9 none =
        Except.ok ⟨8, [1, 1, 1, 1, 1, 1, 1, 1],
          [zio_codec_call.compress lzjb_compress [1, 1, 1, 1, 1, 1, 1, 1, 0] 9 8 0]⟩ ∧
    (8 : Nat) ≠ 9 ∧ ¬ (8 * 8 ≤ 7 * 9) :=
  ⟨⟨0, by decide, by decide⟩, by decide, by decide, by decide⟩

theorem zio_compress_table_level_aware (K : zio_compress_h) (c : Nat)
    (ci : zio_compress_info_t) (hci : (zio_compress_table K)[c]? = some ci)
    (haware : ci.ci_get_level.isSome = true ∨ ci.ci_decompress_level.isSome = true) :
    c = ZIO_COMPRESS_ZSTD ∧ ci.ci_compress = some zstd_compress := by
  have hlt := zio_compress_table_lt K c ci hci
  unfold ZIO_COMPRESS_FUNCTIONS at hlt
  interval_cases c <;> simp [zio_compress_table] at hci <;> subst hci <;>
    simp [ZIO_COMPRESS_ZSTD] at haware ⊢

/-- C9: for a method whose row has a get-level or a level-aware decompress
function (which makes it zstd), a source with a non-zero word and block
properties whose level is `ZIO_ZSTDLVL_INHERIT`, `zio_compress_data` returns
`s_len`, leaves `dst` alone and calls no codec. -/
theorem zio_compress_data_level_inherit (K : zio_compress_h) (E : zio_codecs)
    (debug : Bool) (c : Nat) (src : abd_t) (dst : List byte) (s_len : Nat)
    (p : zio_prop_t) (ci : zio_compress_info_t)
    (hci : (zio_compress_table K)[c]? = some ci)
    (haware : ci.ci_get_level.isSome = true ∨ ci.ci_decompress_level.isSome = true)
    (hnz : ∃ k, 8 * k < s_len ∧ load_uint64 src.abd_buf k ≠ 0)
    (hlvl : p.zp_complevel = K.ZIO_ZSTDLVL_INHERIT) :
    c = ZIO_COMPRESS_ZSTD ∧
    zio_compress_data K E debug c src dst s_len (some p) =
      Except.ok ⟨s_len, dst, []⟩ := by
  obtain ⟨hc, hfn⟩ := zio_compress_table_level_aware K c ci hci haware
  refine ⟨hc, ?_⟩
  rw [zio_compress_data_of_codec K E debug c src dst s_len (some p) ci _ hci hfn
    (abd_iterate_zeroed_ne_zero src s_len hnz)]
  have hcl : zio_compress_data_complevel K debug c ci (some p) = Except.ok none := by
    unfold zio_compress_data_complevel
    simp only [if_pos hc, Option.isSome_some, ASSERT_true, if_pos hlvl]
  rw [hcl]

theorem zio_compress_data_level_inherit_witness :
    (∃ k, 8 * k < 16 ∧ load_uint64 (sample_abd [1, 2, 3]).abd_buf k ≠ 0) ∧
    zio_compress_data sample_header trim_codecs true ZIO_COMPRESS_ZSTD
      (sample_abd [1, 2, 3]) [] 16 (some ⟨0⟩) = Except.ok ⟨16, [], []⟩ :=
  ⟨⟨0, by decide, by decide⟩,
   (zio_compress_data_level_inherit sample_header trim_codecs true ZIO_COMPRESS_ZSTD
     (sample_abd [1, 2, 3]) [] 16 ⟨0⟩
     ⟨"zstd", 3, some zstd_compress, some zstd_decompress,
       some zstd_decompress_level, some zstd_get_level⟩
     rfl (Or.inl rfl) ⟨0, by decide, by decide⟩ rfl).2⟩

/-! ## Round trip through the two drivers -/

/-- The driver on a method whose row has a decompress function: the
level-aware function is called when the row has one and a level pointer is
passed, the plain function with the level of the row otherwise. -/
theorem zio_decompress_data_buf_of_codec (K : zio_compress_h) (E : zio_codecs)
    (c : Nat) (src dst : List byte) (s_len d_len : Nat) (level : Option Int)
    (ci : zio_compress_info_t) (fn : zio_decompress_func)
    (hci : (zio_compress_table K)[c]? = some ci) (hfn : ci.ci_decompress = some fn) :
    zio_decompress_data_buf K E c src dst s_len d_len level =
      match ci.ci_decompress_level, level with
      | some lfn, some lv =>
        Except.ok ⟨(E.run_decompress_level lfn src dst s_len d_len lv).1,
          (E.run_decompress_level lfn src dst s_len d_len lv).2.1,
          some (E.run_decompress_level lfn src dst s_len d_len lv).2.2,
          [zio_codec_call.decompress_level lfn src s_len d_len lv]⟩
      | _, _ =>
        Except.ok ⟨(E.run_decompress fn src dst s_len d_len ci.ci_level).1,
          (E.run_decompress fn src dst s_len d_len ci.ci_level).2, level,
          [zio_codec_call.decompress fn src s_len d_len ci.ci_level]⟩ := by
  have hlt := zio_compress_table_lt K c ci hci
  unfold zio_decompress_data_buf
  rw [if_neg (Nat.not_le_of_lt hlt)]
  simp only [hci, hfn]

theorem zio_decompress_data_buf_invalid (K : zio_compress_h) (E : zio_codecs)
    (c : Nat) (src dst : List byte) (s_len d_len : Nat) (level : Option Int)
    (h : ZIO_COMPRESS_FUNCTIONS ≤ c ∨
      ∃ ci, (zio_compress_table K)[c]? = some ci ∧ ci.ci_decompress = none) :
    zio_decompress_data_buf K E c src dst s_len d_len level =
      Except.ok ⟨SET_ERROR EINVAL, dst, level, []⟩ := by
  unfold zio_decompress_data_buf
  rcases h with h | ⟨ci, hci, hfn⟩
  · rw [if_pos h]
  · rw [if_neg (Nat.not_le_of_lt (zio_compress_table_lt K c ci hci))]
    simp only [hci, hfn]

theorem zio_compress_table_no_decompress (K : zio_compress_h) (c : Nat)
    (ci : zio_compress_info_t) (hci : (zio_compress_table K)[c]? = some ci) :
    ci.ci_decompress = none ↔
      (c = ZIO_COMPRESS_INHERIT ∨ c = ZIO_COMPRESS_ON ∨ c = ZIO_COMPRESS_OFF ∨
        c = ZIO_COMPRESS_EMPTY) := by
  have hlt := zio_compress_table_lt K c ci hci
  unfold ZIO_COMPRESS_FUNCTIONS at hlt
  interval_cases c <;> simp [zio_compress_table] at hci <;> subst hci <;>
    simp [ZIO_COMPRESS_INHERIT, ZIO_COMPRESS_ON, ZIO_COMPRESS_OFF, ZIO_COMPRESS_EMPTY]

/-- C11: `zio_decompress_data_buf` returns `EINVAL`, with `dst` and `*level`
untouched and no codec call, for a method at or past `ZIO_COMPRESS_FUNCTIONS`
(without a read of the table) and for a method whose row has a null
decompress function, which are `INHERIT`, `ON`, `UNCOMPRESSED` and `EMPTY`;
for any other method it makes one codec call and returns what that call
returns. -/
theorem zio_decompress_data_buf_validates (K : zio_compress_h) (E : zio_codecs)
    (c : Nat) (src dst : List byte) (s_len d_len : Nat) (level : Option Int) :
    (ZIO_COMPRESS_FUNCTIONS ≤ c →
      zio_decompress_data_buf K E c src dst s_len d_len level =
        Except.ok ⟨SET_ERROR EINVAL, dst, level, []⟩) ∧
    (∀ ci, (zio_compress_table K)[c]? = some ci →
      (ci.ci_decompress = none ↔
        (c = ZIO_COMPRESS_INHERIT ∨ c = ZIO_COMPRESS_ON ∨ c = ZIO_COMPRESS_OFF ∨
          c = ZIO_COMPRESS_EMPTY)) ∧
      (ci.ci_decompress = none →
        zio_decompress_data_buf K E c src dst s_len d_len level =
          Except.ok ⟨SET_ERROR EINVAL, dst, level, []⟩) ∧
      (∀ fn, ci.ci_decompress = some fn →
        (∃ lfn lv, ci.ci_decompress_level = some lfn ∧ level = some lv ∧
          zio_decompress_data_buf K E c src dst s_len d_len level =
            Except.ok ⟨(E.run_decompress_level lfn src dst s_len d_len lv).1,
              (E.run_decompress_level lfn src dst s_len d_len lv).2.1,
              some (E.run_decompress_level lfn src dst s_len d_len lv).2.2,
              [zio_codec_call.decompress_level lfn src s_len d_len lv]⟩) ∨
        zio_decompress_data_buf K E c src dst s_len d_len level =
          Except.ok ⟨(E.run_decompress fn src dst s_len d_len ci.ci_level).1,
            (E.run_decompress fn src dst s_len d_len ci.ci_level).2, level,
            [zio_codec_call.decompress fn src s_len d_len ci.ci_level]⟩)) := by
  refine ⟨fun h => zio_decompress_data_buf_invalid K E c src dst s_len d_len level
    (Or.inl h), fun ci hci => ⟨zio_compress_table_no_decompress K c ci hci,
    fun hfn => zio_decompress_data_buf_invalid K E c src dst s_len d_len level
      (Or.inr ⟨ci, hci, hfn⟩), fun fn hfn => ?_⟩⟩
  rw [zio_decompress_data_buf_of_codec K E c src dst s_len d_len level ci fn hci hfn]
  cases hl : ci.ci_decompress_level with
  | none => exact Or.inr rfl
  | some lfn =>
    cases level with
    | none => exact Or.inr rfl
    | some lv => exact Or.inl ⟨lfn, lv, rfl, rfl, rfl⟩

theorem zio_decompress_data_buf_validates_witness :
    zio_decompress_data_buf sample_header trim_codecs 17 [1, 2] [9] 2 4 (some 5) =
      Except.ok ⟨22, [9], some 5, []⟩ ∧
    zio_decompress_data_buf sample_header trim_codecs ZIO_COMPRESS_EMPTY [1, 2] [9] 2 4
      (some 5) = Except.ok ⟨22, [9], some 5, []⟩ :=
  ⟨(zio_decompress_data_buf_validates sample_header trim_codecs 17 [1, 2] [9] 2 4
      (some 5)).1 (by decide),
   ((zio_decompress_data_buf_validates sample_header trim_codecs ZIO_COMPRESS_EMPTY
      [1, 2] [9] 2 4 (some 5)).2 ⟨"empty", 0, none, none, none, none⟩ rfl).2.1 rfl⟩

theorem zio_compress_table_get_level (K : zio_compress_h) (c : Nat)
    (ci : zio_compress_info_t) (hci : (zio_compress_table K)[c]? = some ci) :
    (c ≠ ZIO_COMPRESS_ZSTD → ci.ci_get_level = none) ∧
    (c = ZIO_COMPRESS_ZSTD → ci.ci_get_level = some zstd_get_level) := by
  have hlt := zio_compress_table_lt K c ci hci
  unfold ZIO_COMPRESS_FUNCTIONS at hlt
  interval_cases c <;> simp [zio_compress_table] at hci <;> subst hci <;>
    simp [ZIO_COMPRESS_ZSTD]

theorem zio_compress_table_some (K : zio_compress_h) (c : Nat)
    (hc : c < ZIO_COMPRESS_FUNCTIONS) :
    ∃ ci, (zio_compress_table K)[c]? = some ci := by
  rw [← zio_compress_table_length K] at hc
  exact ⟨_, List.getElem?_eq_getElem hc⟩

/-- C12: `zio_decompress_getcomplevel` returns `EINVAL` when the method is at
or past `ZIO_COMPRESS_FUNCTIONS` or the level pointer is null; otherwise it
returns `EOPNOTSUPP`, without a codec call, for every method but zstd, whose
rows have no get-level function; and for zstd it returns what
`zstd_get_level` returns for `(src, s_len, level)` and leaves in `*level` what
that call leaves there. -/
theorem zio_decompress_getcomplevel_result (K : zio_compress_h) (E : zio_codecs)
    (c : Nat) (src : List byte) (s_len : Nat) (level : Option Int) :
    (ZIO_COMPRESS_FUNCTIONS ≤ c ∨ level = none →
      zio_decompress_getcomplevel K E c src s_len level =
        Except.ok ⟨SET_ERROR EINVAL, level, []⟩) ∧
    (∀ lv, c < ZIO_COMPRESS_FUNCTIONS → level = some lv →
      (∀ ci, (zio_compress_table K)[c]? = some ci →
        (ci.ci_get_level = none ↔ c ≠ ZIO_COMPRESS_ZSTD)) ∧
      (c ≠ ZIO_COMPRESS_ZSTD →
        zio_decompress_getcomplevel K E c src s_len level =
          Except.ok ⟨SET_ERROR EOPNOTSUPP, level, []⟩) ∧
      (c = ZIO_COMPRESS_ZSTD →
        zio_decompress_getcomplevel K E c src s_len level =
          Except.ok ⟨(E.run_get_level zstd_get_level src s_len lv).1,
            some (E.run_get_level zstd_get_level src s_len lv).2,
            [zio_codec_call.get_level zstd_get_level src s_len lv]⟩)) := by
  refine ⟨fun h => ?_, fun lv hc hl => ⟨fun ci hci => ?_, fun hne => ?_, fun he => ?_⟩⟩
  · unfold zio_decompress_getcomplevel
    rw [if_pos h]
  · obtain ⟨h1, h2⟩ := zio_compress_table_get_level K c ci hci
    constructor
    · intro hn he
      rw [h2 he] at hn
      exact absurd hn (by simp)
    · exact h1
  · obtain ⟨ci, hci⟩ := zio_compress_table_some K c hc
    have hg := (zio_compress_table_get_level K c ci hci).1 hne
    unfold zio_decompress_getcomplevel
    rw [if_neg (by rw [hl]; simp; exact hc)]
    simp only [hci, hg]
  · obtain ⟨ci, hci⟩ := zio_compress_table_some K c hc
    have hg := (zio_compress_table_get_level K c ci hci).2 he
    unfold zio_decompress_getcomplevel
    rw [if_neg (by rw [hl]; simp; exact hc)]
    simp only [hci, hg, hl]

theorem zio_decompress_getcomplevel_result_witness :
    zio_decompress_getcomplevel sample_header trim_codecs ZIO_COMPRESS_ZSTD [1, 2] 2 none =
      Except.ok ⟨22, none, []⟩ ∧
    zio_decompress_getcomplevel sample_header trim_codecs ZIO_COMPRESS_LZ4 [1, 2] 2
      (some 0) = Except.ok ⟨95, some 0, []⟩ ∧
    zio_decompress_getcomplevel sample_header trim_codecs ZIO_COMPRESS_ZSTD [1, 2] 2
      (some 0) = Except.ok ⟨0, some 3,
        [zio_codec_call.get_level zstd_get_level [1, 2] 2 0]⟩ :=
  ⟨(zio_decompress_getcomplevel_result sample_header trim_codecs ZIO_COMPRESS_ZSTD
      [1, 2] 2 none).1 (Or.inr rfl),
   ((zio_decompress_getcomplevel_result sample_header trim_codecs ZIO_COMPRESS_LZ4
      [1, 2] 2 (some 0)).2 0 (by decide) rfl).2.1 (by decide),
   ((zio_decompress_getcomplevel_result sample_header trim_codecs ZIO_COMPRESS_ZSTD
      [1, 2] 2 (some 0)).2 0 (by decide) rfl).2.2 rfl⟩

/-- C15: `zio_compress_to_feature` gives the zstd feature for the zstd method
and `SPA_FEATURE_NONE` for every other value, inside the table or not. -/
theorem zio_compress_to_feature_zstd (comp : Nat) :
    (comp = ZIO_COMPRESS_ZSTD →
      zio_compress_to_feature comp = spa_feature_t.SPA_FEATURE_ZSTD_COMPRESS) ∧
    (comp ≠ ZIO_COMPRESS_ZSTD →
      zio_compress_to_feature comp = spa_feature_t.SPA_FEATURE_NONE) := by
  unfold zio_compress_to_feature
  exact ⟨fun h => by rw [if_pos h], fun h => by rw [if_neg h]⟩

theorem zio_compress_to_feature_zstd_witness :
    zio_compress_to_feature ZIO_COMPRESS_ZSTD =
      spa_feature_t.SPA_FEATURE_ZSTD_COMPRESS ∧
    zio_compress_to_feature ZIO_COMPRESS_LZ4 = spa_feature_t.SPA_FEATURE_NONE ∧
    zio_compress_to_feature 40 = spa_feature_t.SPA_FEATURE_NONE :=
  ⟨(zio_compress_to_feature_zstd ZIO_COMPRESS_ZSTD).1 rfl,
   (zio_compress_to_feature_zstd ZIO_COMPRESS_LZ4).2 (by decide),
   (zio_compress_to_feature_zstd 40).2 (by decide)⟩

/-- C16: for a method inside the table whose row has a decompress function,
`zio_decompress_data_buf` makes exactly one codec call: the level-aware
decompress function of the row when the row has one and a level pointer is
passed, which may write `*level`; in every other case the plain decompress
function with the level of the row, and then `*level`, if a pointer was
passed, keeps its value. -/
theorem zio_decompress_data_buf_dispatch (K : zio_compress_h) (E : zio_codecs)
    (c : Nat) (src dst : List byte) (s_len d_len : Nat) (level : Option Int)
    (ci : zio_compress_info_t) (fn : zio_decompress_func)
    (hci : (zio_compress_table K)[c]? = some ci) (hfn : ci.ci_decompress = some fn) :
    (∀ lfn lv, ci.ci_decompress_level = some lfn → level = some lv →
      zio_decompress_data_buf K E c src dst s_len d_len level =
        Except.ok ⟨(E.run_decompress_level lfn src dst s_len d_len lv).1,
          (E.run_decompress_level lfn src dst s_len d_len lv).2.1,
          some (E.run_decompress_level lfn src dst s_len d_len lv).2.2,
          [zio_codec_call.decompress_level lfn src s_len d_len lv]⟩) ∧
    (ci.ci_decompress_level = none ∨ level = none →
      zio_decompress_data_buf K E c src dst s_len d_len level =
        Except.ok ⟨(E.run_decompress fn src dst s_len d_len ci.ci_level).1,
          (E.run_decompress fn src dst s_len d_len ci.ci_level).2, level,
          [zio_codec_call.decompress fn src s_len d_len ci.ci_level]⟩) := by
  rw [zio_decompress_data_buf_of_codec K E c src dst s_len d_len level ci fn hci hfn]
  refine ⟨fun lfn lv hl hv => ?_, fun h => ?_⟩
  · rw [hl, hv]
  · rcases h with h | h
    · rw [h]
    · rw [h]
      cases ci.ci_decompress_level <;> rfl

theorem zio_decompress_data_buf_dispatch_witness :
    zio_decompress_data_buf sample_header trim_codecs ZIO_COMPRESS_ZSTD [1, 2] [9] 2 4
        (some 5) =
      Except.ok ⟨0, [1, 2, 0, 0], some 3,
        [zio_codec_call.decompress_level zstd_decompress_level [1, 2] 2 4 5]⟩ ∧
    zio_decompress_data_buf sample_header trim_codecs ZIO_COMPRESS_ZSTD [1, 2] [9] 2 4
        none =
      Except.ok ⟨0, [1, 2, 0, 0], none,
        [zio_codec_call.decompress zstd_decompress [1, 2] 2 4 3]⟩ :=
  ⟨(zio_decompress_data_buf_dispatch sample_header trim_codecs ZIO_COMPRESS_ZSTD
      [1, 2] [9] 2 4 (some 5)
      ⟨"zstd", 3, some zstd_compress, some zstd_decompress,
        some zstd_decompress_level, some zstd_get_level⟩
      zstd_decompress rfl rfl).1 zstd_decompress_level 5 rfl rfl,
   (zio_decompress_data_buf_dispatch sample_header trim_codecs ZIO_COMPRESS_ZSTD
      [1, 2] [9] 2 4 none
      ⟨"zstd", 3, some zstd_compress, some zstd_decompress,
        some zstd_decompress_level, some zstd_get_level⟩
      zstd_decompress rfl rfl).2 (Or.inr rfl)⟩

/-! ## The level passed to the codec -/

theorem zio_compress_data_complevel_some (K : zio_compress_h) (debug : Bool)
    (c : Nat) (ci : zio_compress_info_t) (zp : Option zio_prop_t) (lvl : Int)
    (h : zio_compress_data_complevel K debug c ci zp = Except.ok (some lvl)) :
    (c ≠ ZIO_COMPRESS_ZSTD → lvl = ci.ci_level) ∧
    (c = ZIO_COMPRESS_ZSTD → ∃ p, zp = some p ∧
      p.zp_complevel ≠ K.ZIO_ZSTDLVL_INHERIT ∧
      lvl = (if p.zp_complevel = K.ZIO_ZSTDLVL_DEFAULT then K.ZIO_ZSTD_LEVEL_DEFAULT
        else p.zp_complevel)) := by
  unfold zio_compress_data_complevel at h
  by_cases hc : c = ZIO_COMPRESS_ZSTD
  · refine ⟨fun hne => absurd hc hne, fun _ => ?_⟩
    simp only [if_pos hc] at h
    rcases ASSERT_cases debug 150 zp.isSome with h150 | h150
    · rw [h150] at h
      cases zp with
      | none => exact absurd h (by simp)
      | some p =>
        simp only at h
        by_cases hi : p.zp_complevel = K.ZIO_ZSTDLVL_INHERIT
        · simp only [if_pos hi] at h
          exact absurd h (by simp)
        · simp only [if_neg hi] at h
          rcases ASSERT_cases debug 160
            (decide ((if p.zp_complevel = K.ZIO_ZSTDLVL_DEFAULT then
              K.ZIO_ZSTD_LEVEL_DEFAULT else p.zp_complevel) ≠ K.ZIO_ZSTDLVL_INHERIT))
            with h160 | h160
          · rw [h160] at h
            simp only [Except.ok.injEq, Option.some.injEq] at h
            exact ⟨p, rfl, hi, h.symm⟩
          · rw [h160] at h
            exact absurd h (by simp)
    · rw [h150] at h
      exact absurd h (by simp)
  · refine ⟨fun _ => ?_, fun he => absurd he hc⟩
    simp only [if_neg hc, Except.ok.injEq, Option.some.injEq] at h
    exact h.symm

theorem zio_compress_data_complevel_assert (K : zio_compress_h) (debug : Bool)
    (c : Nat) (ci : zio_compress_info_t) (zp : Option zio_prop_t)
    (hK : K.ZIO_ZSTD_LEVEL_DEFAULT ≠ K.ZIO_ZSTDLVL_INHERIT) :
    zio_compress_data_complevel K debug c ci zp ≠
      Except.error (zio_fault.assertion 160) := by
  intro h
  unfold zio_compress_data_complevel at h
  by_cases hc : c = ZIO_COMPRESS_ZSTD
  · simp only [if_pos hc] at h
    rcases ASSERT_cases debug 150 zp.isSome with h150 | h150
    · rw [h150] at h
      cases zp with
      | none => exact absurd h (by simp)
      | some p =>
        simp only at h
        by_cases hi : p.zp_complevel = K.ZIO_ZSTDLVL_INHERIT
        · simp only [if_pos hi] at h
          exact absurd h (by simp)
        · simp only [if_neg hi] at h
          have hne : (if p.zp_complevel = K.ZIO_ZSTDLVL_DEFAULT then
              K.ZIO_ZSTD_LEVEL_DEFAULT else p.zp_complevel) ≠ K.ZIO_ZSTDLVL_INHERIT := by
            split_ifs
            · exact hK
            · exact hi
          rw [ASSERT_of debug 160 _ hne] at h
          exact absurd h (by simp)
    · rw [h150] at h
      exact absurd h (by simp)
  · simp only [if_neg hc] at h
    exact absurd h (by simp)

/-- The outcomes of the compression driver, by the place that produces
them. -/
theorem zio_compress_data_outcome (K : zio_compress_h) (E : zio_codecs)
    (debug : Bool) (c : Nat) (src : abd_t) (dst : List byte) (s_len : Nat)
    (zp : Option zio_prop_t) :
    (∃ r, zio_compress_data K E debug c src dst s_len zp = Except.ok r ∧
      r.calls = []) ∨
    zio_compress_data K E debug c src dst s_len zp =
      Except.error (zio_fault.assertion 131) ∨
    zio_compress_data K E debug c src dst s_len zp =
      Except.error (zio_fault.assertion 132) ∨
    zio_compress_data K E debug c src dst s_len zp =
      Except.error zio_fault.wild_read ∨
    zio_compress_data K E debug c src dst s_len zp =
      Except.error zio_fault.null_call ∨
    (∃ ci f, (zio_compress_table K)[c]? = some ci ∧
      zio_compress_data_complevel K debug c ci zp = Except.error f ∧
      zio_compress_data K E debug c src dst s_len zp = Except.error f) ∨
    (∃ ci fn lvl r, (zio_compress_table K)[c]? = some ci ∧
      ci.ci_compress = some fn ∧
      zio_compress_data_complevel K debug c ci zp = Except.ok (some lvl) ∧
      zio_compress_data K E debug c src dst s_len zp = Except.ok r ∧
      r.calls = [zio_codec_call.compress fn (abd_borrow_buf_copy src s_len) s_len
        (s_len - (s_len >>> 3)) lvl]) := by
  rcases ASSERT_cases debug 131 (decide (c < ZIO_COMPRESS_FUNCTIONS)) with h1 | h1
  swap
  · exact Or.inr (Or.inl (by simp only [zio_compress_data, h1]))
  rcases ASSERT_cases debug 132
    (decide (c = ZIO_COMPRESS_EMPTY) || has_ci_compress K c) with h2 | h2
  swap
  · exact Or.inr (Or.inr (Or.inl (by simp only [zio_compress_data, h1, h2])))
  by_cases hz : abd_iterate_func src 0 s_len zio_compress_zeroed_cb = 0
  · exact Or.inl ⟨⟨0, dst, []⟩,
      by simp only [zio_compress_data, h1, h2, hz, if_true], rfl⟩
  by_cases hce : c = ZIO_COMPRESS_EMPTY
  · exact Or.inl ⟨⟨s_len, dst, []⟩,
      by simp only [zio_compress_data, h1, h2, hz, if_false, if_pos hce], rfl⟩
  cases hci : (zio_compress_table K)[c]? with
  | none =>
    exact Or.inr (Or.inr (Or.inr (Or.inl
      (by simp only [zio_compress_data, h1, h2, hz, if_false, if_neg hce, hci]))))
  | some ci =>
    cases hcl : zio_compress_data_complevel K debug c ci zp with
    | error f =>
      exact Or.inr (Or.inr (Or.inr (Or.inr (Or.inr (Or.inl ⟨ci, f, rfl, hcl,
        by simp only [zio_compress_data, h1, h2, hz, if_false, if_neg hce, hci, hcl]⟩)))))
    | ok o =>
      cases o with
      | none =>
        exact Or.inl ⟨⟨s_len, dst, []⟩,
          by simp only [zio_compress_data, h1, h2, hz, if_false, if_neg hce, hci, hcl],
          rfl⟩
      | some lvl =>
        cases hfn : ci.ci_compress with
        | none =>
          exact Or.inr (Or.inr (Or.inr (Or.inr (Or.inl
            (by simp only [zio_compress_data, h1, h2, hz, if_false, if_neg hce, hci,
              hcl, hfn])))))
        | some fn =>
          have key := zio_compress_data_of_codec K E debug c src dst s_len zp ci fn
            hci hfn hz
          rw [hcl] at key
          simp only at key
          refine Or.inr (Or.inr (Or.inr (Or.inr (Or.inr (Or.inr
            ⟨ci, fn, lvl, ?_⟩)))))
          split_ifs at key
          · exact ⟨_, rfl, hfn, hcl, key, rfl⟩
          · exact ⟨_, rfl, hfn, hcl, key, rfl⟩

theorem zio_compress_table_zstd_row (K : zio_compress_h) (c : Nat)
    (ci : zio_compress_info_t) (hci : (zio_compress_table K)[c]? = some ci) :
    (ci.ci_get_level.isSome = true ∨ ci.ci_decompress_level.isSome = true) ↔
      c = ZIO_COMPRESS_ZSTD := by
  constructor
  · intro h
    exact (zio_compress_table_level_aware K c ci hci h).1
  · intro h
    rw [(zio_compress_table_get_level K c ci hci).2 h]
    exact Or.inl rfl

/-- C17: with a header whose default zstd level is not the inherit sentinel,
the assertion of line 160 does not fail; a codec call logged by
`zio_compress_data` is a call of the compress function with the level of the
row when the method is not zstd, and when it is zstd with the default level
of the header if the requested level is `ZIO_ZSTDLVL_DEFAULT` and with the
requested level otherwise, never with `ZIO_ZSTDLVL_INHERIT`; when the method
is not zstd the outcome does not depend on the block properties; and zstd is
the method whose row has a get-level or level-aware decompress function. -/
theorem zio_compress_data_level_passed (K : zio_compress_h) (E : zio_codecs)
    (debug : Bool) (c : Nat) (src : abd_t) (dst : List byte) (s_len : Nat)
    (zp : Option zio_prop_t)
    (hK : K.ZIO_ZSTD_LEVEL_DEFAULT ≠ K.ZIO_ZSTDLVL_INHERIT) :
    zio_compress_data K E debug c src dst s_len zp ≠
      Except.error (zio_fault.assertion 160) ∧
    (∀ r, zio_compress_data K E debug c src dst s_len zp = Except.ok r →
      ∀ call, call ∈ r.calls →
        ∃ ci fn lvl, (zio_compress_table K)[c]? = some ci ∧
          ci.ci_compress = some fn ∧
          call = zio_codec_call.compress fn (abd_borrow_buf_copy src s_len) s_len
            (s_len - (s_len >>> 3)) lvl ∧
          (c ≠ ZIO_COMPRESS_ZSTD → lvl = ci.ci_level) ∧
          (c = ZIO_COMPRESS_ZSTD → lvl ≠ K.ZIO_ZSTDLVL_INHERIT ∧
            ∃ p, zp = some p ∧
              lvl = (if p.zp_complevel = K.ZIO_ZSTDLVL_DEFAULT then
                K.ZIO_ZSTD_LEVEL_DEFAULT else p.zp_complevel))) ∧
    (c ≠ ZIO_COMPRESS_ZSTD → ∀ zp2,
      zio_compress_data K E debug c src dst s_len zp2 =
        zio_compress_data K E debug c src dst s_len zp) ∧
    (∀ ci, (zio_compress_table K)[c]? = some ci →
      ((ci.ci_get_level.isSome = true ∨ ci.ci_decompress_level.isSome = true) ↔
        c = ZIO_COMPRESS_ZSTD)) := by
  refine ⟨?_, ?_, ?_, fun ci hci => zio_compress_table_zstd_row K c ci hci⟩
  · intro h
    rcases zio_compress_data_outcome K E debug c src dst s_len zp with
      ⟨r, hr, _⟩ | h1 | h1 | h1 | h1 | ⟨ci, f, _, hcl, hf⟩ | ⟨_, _, _, r, _, _, _, hr, _⟩
    · rw [hr] at h
      exact absurd h (by simp)
    · rw [h1] at h
      exact absurd h (by decide)
    · rw [h1] at h
      exact absurd h (by decide)
    · rw [h1] at h
      exact absurd h (by decide)
    · rw [h1] at h
      exact absurd h (by decide)
    · rw [hf] at h
      rw [Except.error.inj h] at hcl
      exact zio_compress_data_complevel_assert K debug c ci zp hK hcl
    · rw [hr] at h
      exact absurd h (by simp)
  · intro r hr call hcall
    rcases zio_compress_data_outcome K E debug c src dst s_len zp with
      ⟨r2, hr2, hcalls⟩ | h1 | h1 | h1 | h1 | ⟨_, f, _, _, hf⟩ |
      ⟨ci, fn, lvl, r2, hci, hfn, hcl, hr2, hcalls⟩
    · rw [hr2] at hr
      rw [← Except.ok.inj hr, hcalls] at hcall
      exact absurd hcall (by simp)
    · rw [h1] at hr
      exact absurd hr (by simp)
    · rw [h1] at hr
      exact absurd hr (by simp)
    · rw [h1] at hr
      exact absurd hr (by simp)
    · rw [h1] at hr
      exact absurd hr (by simp)
    · rw [hf] at hr
      exact absurd hr (by simp)
    · rw [hr2] at hr
      rw [← Except.ok.inj hr, hcalls, List.mem_singleton] at hcall
      obtain ⟨hne, heq⟩ := zio_compress_data_complevel_some K debug c ci zp lvl hcl
      refine ⟨ci, fn, lvl, hci, hfn, hcall, hne, fun hc => ?_⟩
      obtain ⟨p, hp, hi, hl⟩ := heq hc
      refine ⟨?_, p, hp, hl⟩
      rw [hl]
      split_ifs
      · exact hK
      · exact hi
  · intro hne zp2
    have hcl : ∀ (ci : zio_compress_info_t) (z : Option zio_prop_t),
        zio_compress_data_complevel K debug c ci z = Except.ok (some ci.ci_level) := by
      intro ci z
      unfold zio_compress_data_complevel
      rw [if_neg hne]
    simp only [zio_compress_data, hcl]

theorem zio_compress_data_level_passed_witness :
    sample_header.ZIO_ZSTD_LEVEL_DEFAULT ≠ sample_header.ZIO_ZSTDLVL_INHERIT ∧
    zio_compress_data sample_header trim_codecs true ZIO_COMPRESS_ZSTD
        (sample_abd [1, 2, 3]) [] 16 (some ⟨sample_header.ZIO_ZSTDLVL_DEFAULT⟩) ≠
      Except.error (zio_fault.assertion 160) ∧
    zio_compress_data sample_header trim_codecs true ZIO_COMPRESS_ZSTD
        (sample_abd [1, 2, 3]) [] 16 (some ⟨sample_header.ZIO_ZSTDLVL_DEFAULT⟩) =
      Except.ok ⟨3, [1, 2, 3],
        [zio_codec_call.compress zstd_compress
          [1, 2, 3, 0, 0, 0, 0, 0, 0, 0, 0, 0, 0, 0, 0, 0] 16 14 3]⟩ ∧
    zio_compress_data sample_header trim_codecs true ZIO_COMPRESS_GZIP_6
        (sample_abd [1, 2, 3]) [] 16 (some ⟨7⟩) =
      zio_compress_data sample_header trim_codecs true ZIO_COMPRESS_GZIP_6
        (sample_abd [1, 2, 3]) [] 16 none :=
  ⟨by decide,
   (zio_compress_data_level_passed sample_header trim_codecs true ZIO_COMPRESS_ZSTD
     (sample_abd [1, 2, 3]) [] 16 (some ⟨sample_header.ZIO_ZSTDLVL_DEFAULT⟩)
     (by decide)).1,
   by decide,
   (zio_compress_data_level_passed sample_header trim_codecs true ZIO_COMPRESS_GZIP_6
     (sample_abd [1, 2, 3]) [] 16 none (by decide)).2.2.1 (by decide) (some ⟨7⟩)⟩

/-! ## Failure injection -/

theorem zio_decompress_data_buf_returns (K : zio_compress_h) (E : zio_codecs)
    (c : Nat) (src dst : List byte) (s_len d_len : Nat) (level : Option Int) :
    ∃ d, zio_decompress_data_buf K E c src dst s_len d_len level = Except.ok d := by
  by_cases hc : ZIO_COMPRESS_FUNCTIONS ≤ c
  · exact ⟨_, zio_decompress_data_buf_invalid K E c src dst s_len d_len level (Or.inl hc)⟩
  · obtain ⟨ci, hci⟩ := zio_compress_table_some K c (Nat.lt_of_not_le hc)
    cases hfn : ci.ci_decompress with
    | none =>
      exact ⟨_, zio_decompress_data_buf_invalid K E c src dst s_len d_len level
        (Or.inr ⟨ci, hci, hfn⟩)⟩
    | some fn =>
      rw [zio_decompress_data_buf_of_codec K E c src dst s_len d_len level ci fn hci hfn]
      cases ci.ci_decompress_level with
      | none => exact ⟨_, rfl⟩
      | some lfn =>
        cases level with
        | none => exact ⟨_, rfl⟩
        | some lv => exact ⟨_, rfl⟩

/-- C18: `zio_decompress_data_buf` on the borrowed copy returns some `d`.
When the assertion `ASSERT0(ret)` of line 202 passes (a release build, or
`d.ret = 0`), `zio_decompress_data` gives: with a fail fraction of 0, the
result `d` and no call of `spa_get_random`; with a non-zero fraction, one
call of `spa_get_random` with the fraction, and then `EINVAL` if the draw is
0 and the value of `d` otherwise; the destination, `*level` and the codec
calls are those of `d` in each case.  When the assertion does not pass (a
debug build and `d.ret` not 0) the call stops there and returns nothing. -/
theorem zio_decompress_data_injection (K : zio_compress_h) (E : zio_codecs)
    (debug : Bool) (fraction : Nat) (spa_get_random : Nat → Nat) (c : Nat)
    (src : abd_t) (dst : List byte) (s_len d_len : Nat) (level : Option Int) :
    ∃ d, zio_decompress_data_buf K E c (abd_borrow_buf_copy src s_len) dst s_len d_len
        level = Except.ok d ∧
      ((debug = true → d.ret = 0) →
        (fraction = 0 →
          zio_decompress_data K E debug fraction spa_get_random c src dst s_len d_len
            level = Except.ok ⟨d.ret, d.dst, d.level, d.calls, []⟩) ∧
        (fraction ≠ 0 → spa_get_random fraction = 0 →
          zio_decompress_data K E debug fraction spa_get_random c src dst s_len d_len
            level = Except.ok ⟨SET_ERROR EINVAL, d.dst, d.level, d.calls, [fraction]⟩) ∧
        (fraction ≠ 0 → spa_get_random fraction ≠ 0 →
          zio_decompress_data K E debug fraction spa_get_random c src dst s_len d_len
            level = Except.ok ⟨d.ret, d.dst, d.level, d.calls, [fraction]⟩)) ∧
      (debug = true ∧ d.ret ≠ 0 →
        zio_decompress_data K E debug fraction spa_get_random c src dst s_len d_len
          level = Except.error (zio_fault.assertion 202)) := by
  obtain ⟨d, hd⟩ := zio_decompress_data_buf_returns K E c (abd_borrow_buf_copy src s_len)
    dst s_len d_len level
  refine ⟨d, hd, fun ha => ?_, fun hf => ?_⟩
  swap
  · obtain ⟨hdbg, hne⟩ := hf
    have h202 : ASSERT debug 202 (decide (d.ret = 0)) =
        some (zio_fault.assertion 202) := by
      rw [hdbg, decide_eq_false hne]
      rfl
    simp only [zio_decompress_data, hd, h202]
  have h202 : ASSERT debug 202 (decide (d.ret = 0)) = none := by
    cases debug with
    | false => rfl
    | true => exact ASSERT_of true 202 _ (ha rfl)
  refine ⟨fun h0 => ?_, fun h0 hr => ?_, fun h0 hr => ?_⟩
  · simp only [zio_decompress_data, hd, h202, h0, ne_eq, not_true_eq_false, if_false]
  · simp only [zio_decompress_data, hd, h202, ne_eq, h0, not_false_eq_true, if_true, hr]
  · simp only [zio_decompress_data, hd, h202, ne_eq, h0, not_false_eq_true, if_true, hr,
      if_false]

theorem zio_decompress_data_injection_witness :
    zio_decompress_data sample_header trim_codecs true 0 (fun _ => 0) ZIO_COMPRESS_LZ4
        (sample_abd [1, 2]) [9] 2 4 none =
      Except.ok ⟨0, [1, 2, 0, 0], none,
        [zio_codec_call.decompress lz4_decompress [1, 2] 2 4 0], []⟩ ∧
    zio_decompress_data sample_header trim_codecs true 5 (fun _ => 0) ZIO_COMPRESS_LZ4
        (sample_abd [1, 2]) [9] 2 4 none =
      Except.ok ⟨22, [1, 2, 0, 0], none,
        [zio_codec_call.decompress lz4_decompress [1, 2] 2 4 0], [5]⟩ ∧
    zio_decompress_data sample_header trim_codecs true 5 (fun _ => 3) ZIO_COMPRESS_LZ4
        (sample_abd [1, 2]) [9] 2 4 none =
      Except.ok ⟨0, [1, 2, 0, 0], none,
        [zio_codec_call.decompress lz4_decompress [1, 2] 2 4 0], [5]⟩ := by
  refine ⟨?_, ?_, ?_⟩
  · obtain ⟨d, hd, h⟩ := zio_decompress_data_injection sample_header trim_codecs true 0
      (fun _ => 0) ZIO_COMPRESS_LZ4 (sample_abd [1, 2]) [9] 2 4 none
    have hd2 : d = ⟨0, [1, 2, 0, 0], none,
        [zio_codec_call.decompress lz4_decompress [1, 2] 2 4 0]⟩ :=
      (Except.ok.inj hd).symm
    subst hd2
    exact (h.1 (fun _ => rfl)).1 rfl
  · obtain ⟨d, hd, h⟩ := zio_decompress_data_injection sample_header trim_codecs true 5
      (fun _ => 0) ZIO_COMPRESS_LZ4 (sample_abd [1, 2]) [9] 2 4 none
    have hd2 : d = ⟨0, [1, 2, 0, 0], none,
        [zio_codec_call.decompress lz4_decompress [1, 2] 2 4 0]⟩ :=
      (Except.ok.inj hd).symm
    subst hd2
    exact (h.1 (fun _ => rfl)).2.1 (by decide) rfl
  · obtain ⟨d, hd, h⟩ := zio_decompress_data_injection sample_header trim_codecs true 5
      (fun _ => 3) ZIO_COMPRESS_LZ4 (sample_abd [1, 2]) [9] 2 4 none
    have hd2 : d = ⟨0, [1, 2, 0, 0], none,
        [zio_codec_call.decompress lz4_decompress [1, 2] 2 4 0]⟩ :=
      (Except.ok.inj hd).symm
    subst hd2
    exact (h.1 (fun _ => rfl)).2.2 (by decide) (by decide)

/-! ## Properties of the boot decoder -/

theorem boot_htonl_load_uint32 (P : boot.platform) (src : Nat → byte) (off : Nat) :
    boot.htonl P (boot.load_uint32 P src off) = big_endian_uint32 src off := by
  have h0 := (src off).isLt
  have h1 := (src (off + 1)).isLt
  have h2 := (src (off + 2)).isLt
  have h3 := (src (off + 3)).isLt
  unfold boot.htonl boot.load_uint32 big_endian_uint32
  cases P.little_endian with
  | false =>
    simp only [Bool.false_eq_true, if_false]
    omega
  | true =>
    simp only [if_true]
    omega

theorem big_endian_uint32_lt (src : Nat → byte) (off : Nat) :
    big_endian_uint32 src off < 2 ^ 32 := by
  have h0 := (src off).isLt
  have h1 := (src (off + 1)).isLt
  have h2 := (src (off + 2)).isLt
  have h3 := (src (off + 3)).isLt
  unfold big_endian_uint32
  norm_num
  omega

/-- The header check of line 47 in terms of the big-endian payload length. -/
theorem boot_zstd_decompress_eq (P : boot.platform) (L : boot.zstd_lib)
    (debug : Bool) (vars : boot.zstd_static) (src : Nat → byte)
    (d_start : List byte) (s_len d_len : Nat) (n : Int)
    (ha : debug = true → s_len ≤ d_len) :
    boot.zstd_decompress P L debug vars src d_start s_len d_len n =
      if (big_endian_uint32 src 0 + 4 + 4) % 2 ^ P.size_bits > s_len then
        Except.ok ⟨1, d_start, vars, [], [boot.zstd_message.header_failed]⟩
      else
        match vars.dctxbuf with
        | none =>
          match L.malloc (L.ZSTD_estimateDCtxSize + 8) with
          | none =>
            Except.ok ⟨1, d_start, ⟨none, L.ZSTD_estimateDCtxSize⟩,
              [boot.zstd_call.ZSTD_estimateDCtxSize,
                boot.zstd_call.malloc (L.ZSTD_estimateDCtxSize + 8)],
              [boot.zstd_message.allocation_failed]⟩
          | some p =>
            Except.ok (boot.zstd_decompress_dctx L
              ⟨some (boot.roundup2 p 8), L.ZSTD_estimateDCtxSize⟩
              (boot.roundup2 p 8)
              [boot.zstd_call.ZSTD_estimateDCtxSize,
                boot.zstd_call.malloc (L.ZSTD_estimateDCtxSize + 8)]
              src d_start d_len (big_endian_uint32 src 0))
        | some buf =>
          Except.ok (boot.zstd_decompress_dctx L vars buf [] src d_start d_len
            (big_endian_uint32 src 0)) := by
  have h44 : ASSERT debug 44 (decide (d_len ≥ s_len)) = none := by
    cases debug with
    | false => rfl
    | true => exact ASSERT_of true 44 _ (ha rfl)
  simp only [boot.zstd_decompress, h44, boot_htonl_load_uint32]

/-- Where the sum of line 47 does not wrap, a header that declares more
payload than the source holds makes the function return 1 before any call. -/
theorem boot_zstd_decompress_header_check (P : boot.platform) (L : boot.zstd_lib)
    (debug : Bool) (vars : boot.zstd_static) (src : Nat → byte)
    (d_start : List byte) (s_len d_len : Nat) (n : Int)
    (ha : debug = true → s_len ≤ d_len)
    (hw : 8 + big_endian_uint32 src 0 < 2 ^ P.size_bits)
    (hlen : 8 + big_endian_uint32 src 0 > s_len) :
    boot.zstd_decompress P L debug vars src d_start s_len d_len n =
      Except.ok ⟨1, d_start, vars, [], [boot.zstd_message.header_failed]⟩ := by
  rw [boot_zstd_decompress_eq P L debug vars src d_start s_len d_len n ha]
  have hmod : (big_endian_uint32 src 0 + 4 + 4) % 2 ^ P.size_bits =
      8 + big_endian_uint32 src 0 := by
    rw [Nat.mod_eq_of_lt (by omega)]
    omega
  rw [hmod, if_pos hlen]

theorem boot_zstd_decompress_header_check_wide (P : boot.platform)
    (L : boot.zstd_lib) (debug : Bool) (vars : boot.zstd_static) (src : Nat → byte)
    (d_start : List byte) (s_len d_len : Nat) (n : Int)
    (ha : debug = true → s_len ≤ d_len) (hP : 33 ≤ P.size_bits)
    (hlen : 8 + big_endian_uint32 src 0 > s_len) :
    boot.zstd_decompress P L debug vars src d_start s_len d_len n =
      Except.ok ⟨1, d_start, vars, [], [boot.zstd_message.header_failed]⟩ := by
  have h32 := big_endian_uint32_lt src 0
  have hpow : 2 ^ 33 ≤ 2 ^ P.size_bits := Nat.pow_le_pow_right (by decide) hP
  exact boot_zstd_decompress_header_check P L debug vars src d_start s_len d_len n ha
    (by norm_num at h32 hpow ⊢; omega) hlen

/-- C13, the code at a failing input: with a `size_t` of 32 bits and a source
of 16 bytes whose header declares a payload of `2 ^ 32 - 4` bytes, so that
`8 + payloadLen > srcLen`, the sum of line 47 wraps to 4, the check passes,
the context is allocated and set up, and the codec is called with a source
size of `2 ^ 32 - 4`; with the toy codec the function returns 0.  With a
`size_t` of 64 bits the same call returns 1 before any call. -/
theorem boot_zstd_decompress_header_wraps :
    8 + big_endian_uint32
        (sample_abd [255, 255, 255, 252, 0, 0, 0, 0, 2, 65, 66]).abd_buf 0 > 16 ∧
    boot.zstd_decompress sample_ilp32 sample_zstd_lib true ⟨none, 0⟩
        (sample_abd [255, 255, 255, 252, 0, 0, 0, 0, 2, 65, 66]).abd_buf [] 16 16 0 =
      Except.ok ⟨0, [65, 66], ⟨some 4104, 64⟩,
        [boot.zstd_call.ZSTD_estimateDCtxSize, boot.zstd_call.malloc 72,
          boot.zstd_call.ZSTD_initStaticDCtx 4104 64,
          boot.zstd_call.ZSTD_decompressDCtx 16 8 4294967292],
        []⟩ ∧
    boot.zstd_decompress sample_lp64 sample_zstd_lib true ⟨none, 0⟩
        (sample_abd [255, 255, 255, 252, 0, 0, 0, 0, 2, 65, 66]).abd_buf [] 16 16 0 =
      Except.ok ⟨1, [], ⟨none, 0⟩, [], [boot.zstd_message.header_failed]⟩ := by
  decide

/-- The function past the header check, with the context obtained: the
codec is called once, on the source from offset 8 with the declared payload
length as its size and with `d_len` as the capacity of the destination; the
value returned is 1 when `ZSTD_isError` holds of the codec's result and 0
when it does not. -/
theorem boot_zstd_decompress_codec (P : boot.platform) (L : boot.zstd_lib)
    (debug : Bool) (vars : boot.zstd_static) (src : Nat → byte)
    (d_start : List byte) (s_len d_len : Nat) (n : Int) (buf : Nat)
    (ha : debug = true → s_len ≤ d_len)
    (hhdr : ¬ (big_endian_uint32 src 0 + 4 + 4) % 2 ^ P.size_bits > s_len)
    (hctx : dctx_obtained L vars buf) :
    ∃ r pre, boot.zstd_decompress P L debug vars src d_start s_len d_len n =
        Except.ok r ∧
      r.calls = pre ++ [boot.zstd_call.ZSTD_initStaticDCtx buf r.vars.dctxsize,
        boot.zstd_call.ZSTD_decompressDCtx d_len 8 (big_endian_uint32 src 0)] ∧
      (pre = [] ∨ pre = [boot.zstd_call.ZSTD_estimateDCtxSize,
        boot.zstd_call.malloc (L.ZSTD_estimateDCtxSize + 8)]) ∧
      r.vars.dctxbuf = some buf ∧
      r.dst = (L.ZSTD_decompressDCtx d_start d_len (fun i => src (8 + i))
        (big_endian_uint32 src 0)).2 ∧
      (L.ZSTD_isError (L.ZSTD_decompressDCtx d_start d_len (fun i => src (8 + i))
          (big_endian_uint32 src 0)).1 = true →
        r.ret = 1 ∧ r.printed = [boot.zstd_message.block_failed]) ∧
      (L.ZSTD_isError (L.ZSTD_decompressDCtx d_start d_len (fun i => src (8 + i))
          (big_endian_uint32 src 0)).1 = false →
        r.ret = 0 ∧ r.printed = []) := by
  rw [boot_zstd_decompress_eq P L debug vars src d_start s_len d_len n ha, if_neg hhdr]
  have h8 : (fun i => src (4 + 4 + i)) = (fun i => src (8 + i)) := rfl
  rcases hctx with ⟨hb, hi⟩ | ⟨hb, ⟨p, hp, hbuf⟩, hi⟩
  · rw [hb]
    simp only
    unfold boot.zstd_decompress_dctx
    rw [hi]
    simp only [Bool.true_eq_false, if_false, h8]
    cases he : L.ZSTD_isError (L.ZSTD_decompressDCtx d_start d_len (fun i => src (8 + i))
        (big_endian_uint32 src 0)).1 with
    | true =>
      exact ⟨_, [], rfl, rfl, Or.inl rfl, hb, rfl, fun _ => ⟨rfl, rfl⟩,
        fun h => absurd h (by simp)⟩
    | false =>
      exact ⟨_, [], rfl, rfl, Or.inl rfl, hb, rfl, fun h => absurd h (by simp),
        fun _ => ⟨rfl, rfl⟩⟩
  · rw [hb]
    simp only [hp]
    unfold boot.zstd_decompress_dctx
    rw [← hbuf]
    simp only [hi, Bool.true_eq_false, if_false, h8]
    cases he : L.ZSTD_isError (L.ZSTD_decompressDCtx d_start d_len (fun i => src (8 + i))
        (big_endian_uint32 src 0)).1 with
    | true =>
      exact ⟨_, _, rfl, rfl, Or.inr rfl, rfl, rfl, fun _ => ⟨rfl, rfl⟩,
        fun h => absurd h (by simp)⟩
    | false =>
      exact ⟨_, _, rfl, rfl, Or.inr rfl, rfl, rfl, fun h => absurd h (by simp),
        fun _ => ⟨rfl, rfl⟩⟩

/-- C14, as the code has it: take a call whose header declares a payload
longer than the source, `8 + payloadLen > s_len`, with the sum of line 47 not
wrapping in `size_t`, and a call whose header fits, whose context is obtained
and whose codec result `ZSTD_isError` reports as an error.  Both calls return
a value, and the two values are the same, 1: the value returned does not
tell the framing violation from the codec failure.  The message printed is
the header message in the first call and the block message in the second. -/
theorem boot_zstd_decompress_failure_value (P : boot.platform) (L : boot.zstd_lib)
    (debug : Bool)
    (vars : boot.zstd_static) (src : Nat → byte) (d_start : List byte)
    (s_len d_len : Nat) (n : Int)
    (vars2 : boot.zstd_static) (src2 : Nat → byte) (d_start2 : List byte)
    (s_len2 d_len2 : Nat) (n2 : Int) (buf : Nat)
    (ha : debug = true → s_len ≤ d_len)
    (hw : 8 + big_endian_uint32 src 0 < 2 ^ P.size_bits)
    (hlen : 8 + big_endian_uint32 src 0 > s_len)
    (ha2 : debug = true → s_len2 ≤ d_len2)
    (hsz2 : s_len2 < 2 ^ P.size_bits)
    (hhdr2 : 8 + big_endian_uint32 src2 0 ≤ s_len2)
    (hctx2 : dctx_obtained L vars2 buf)
    (herr2 : L.ZSTD_isError (L.ZSTD_decompressDCtx d_start2 d_len2
      (fun i => src2 (8 + i)) (big_endian_uint32 src2 0)).1 = true) :
    ∃ r1 r2,
      boot.zstd_decompress P L debug vars src d_start s_len d_len n = Except.ok r1 ∧
      boot.zstd_decompress P L debug vars2 src2 d_start2 s_len2 d_len2 n2 =
        Except.ok r2 ∧
      r1.ret = 1 ∧ r2.ret = 1 ∧ r1.ret = r2.ret ∧
      r1.printed = [boot.zstd_message.header_failed] ∧
      r2.printed = [boot.zstd_message.block_failed] ∧
      r1.printed ≠ r2.printed := by
  have h1 := boot_zstd_decompress_header_check P L debug vars src d_start s_len d_len n
    ha hw hlen
  have hmod : (big_endian_uint32 src2 0 + 4 + 4) % 2 ^ P.size_bits =
      8 + big_endian_uint32 src2 0 := by
    rw [Nat.mod_eq_of_lt (by omega)]
    omega
  have hnot : ¬ (big_endian_uint32 src2 0 + 4 + 4) % 2 ^ P.size_bits > s_len2 := by
    rw [hmod]
    omega
  obtain ⟨r2, _, hr2, _, _, _, _, he, _⟩ :=
    boot_zstd_decompress_codec P L debug vars2 src2 d_start2 s_len2 d_len2 n2 buf ha2
      hnot hctx2
  obtain ⟨hret2, hpr2⟩ := he herr2
  refine ⟨_, r2, h1, hr2, rfl, hret2, ?_, rfl, hpr2, ?_⟩
  · rw [hret2]
  · rw [hpr2]
    show [boot.zstd_message.header_failed] ≠ [boot.zstd_message.block_failed]
    decide

theorem boot_zstd_decompress_failure_value_witness :
    8 + big_endian_uint32
        (sample_abd [0, 0, 0, 100, 0, 0, 0, 0, 2, 65, 66]).abd_buf 0 > 16 ∧
    8 + big_endian_uint32
        (sample_abd [0, 0, 0, 8, 0, 0, 0, 0, 200, 65, 66]).abd_buf 0 ≤ 16 ∧
    (∃ r1 r2,
      boot.zstd_decompress sample_lp64 sample_zstd_lib true ⟨some 4104, 64⟩
        (sample_abd [0, 0, 0, 100, 0, 0, 0, 0, 2, 65, 66]).abd_buf [] 16 16 0 =
          Except.ok r1 ∧
      boot.zstd_decompress sample_lp64 sample_zstd_lib true ⟨some 4104, 64⟩
        (sample_abd [0, 0, 0, 8, 0, 0, 0, 0, 200, 65, 66]).abd_buf [] 16 16 0 =
          Except.ok r2 ∧
      r1.ret = 1 ∧ r2.ret = 1 ∧ r1.ret = r2.ret ∧
      r1.printed = [boot.zstd_message.header_failed] ∧
      r2.printed = [boot.zstd_message.block_failed] ∧
      r1.printed ≠ r2.printed) :=
  ⟨by decide, by decide,
   boot_zstd_decompress_failure_value sample_lp64 sample_zstd_lib true
      ⟨some 4104, 64⟩ (sample_abd [0, 0, 0, 100, 0, 0, 0, 0, 2, 65, 66]).abd_buf [] 16 16 0
      ⟨some 4104, 64⟩ (sample_abd [0, 0, 0, 8, 0, 0, 0, 0, 200, 65, 66]).abd_buf [] 16 16 0
      4104 (fun _ => by decide) (by decide) (by decide) (fun _ => by decide) (by decide)
      (by decide) (Or.inl ⟨rfl, rfl⟩) (by decide)⟩

/-- C14, counterexample to the claim as stated: a source whose header
declares 100 bytes of payload in 16 bytes of source, and a source whose
header is right but whose frame the codec rejects, both make the function
return 1. -/
theorem boot_zstd_decompress_same_value :
    boot.zstd_decompress sample_lp64 sample_zstd_lib true ⟨some 4104, 64⟩
        (sample_abd [0, 0, 0, 100, 0, 0, 0, 0, 2, 65, 66]).abd_buf [] 16 16 0 =
      Except.ok ⟨1, [], ⟨some 4104, 64⟩, [], [boot.zstd_message.header_failed]⟩ ∧
    boot.zstd_decompress sample_lp64 sample_zstd_lib true ⟨some 4104, 64⟩
        (sample_abd [0, 0, 0, 8, 0, 0, 0, 0, 200, 65, 66]).abd_buf [] 16 16 0 =
      Except.ok ⟨1, [], ⟨some 4104, 64⟩,
        [boot.zstd_call.ZSTD_initStaticDCtx 4104 64,
          boot.zstd_call.ZSTD_decompressDCtx 16 8 8],
        [boot.zstd_message.block_failed]⟩ := by
  decide

theorem boot_zstd_decompress_dctx_congr (L : boot.zstd_lib)
    (vars : boot.zstd_static) (buf : Nat) (calls : List boot.zstd_call)
    (src src2 : Nat → byte) (d_start : List byte) (d_len bufsiz : Nat)
    (h : ∀ i, src2 (8 + i) = src (8 + i)) :
    boot.zstd_decompress_dctx L vars buf calls src2 d_start d_len bufsiz =
      boot.zstd_decompress_dctx L vars buf calls src d_start d_len bufsiz := by
  have h8 : (fun i => src2 (4 + 4 + i)) = (fun i => src (4 + 4 + i)) :=
    funext (fun i => h i)
  unfold boot.zstd_decompress_dctx
  rw [h8]

/-- C19: for a source whose header declares a payload that fits
(`8 + payloadLen <= s_len`) and with the context obtained, `zstd_decompress`
calls the codec once, on the source from offset 8 with `payloadLen` as the
source size and `d_len` as the destination capacity; it leaves the
destination as the codec leaves it and returns 0 exactly when `ZSTD_isError`
does not hold of the codec's result, and 1 otherwise; and no outcome of the
function depends on the bytes 4 to 7 of the source, the cookie. -/
theorem boot_zstd_decompress_payload (P : boot.platform) (L : boot.zstd_lib)
    (debug : Bool) (vars : boot.zstd_static) (src : Nat → byte)
    (d_start : List byte) (s_len d_len : Nat) (n : Int) (buf : Nat)
    (ha : debug = true → s_len ≤ d_len)
    (hsz : s_len < 2 ^ P.size_bits)
    (hhdr : 8 + big_endian_uint32 src 0 ≤ s_len)
    (hctx : dctx_obtained L vars buf) :
    (∃ r pre, boot.zstd_decompress P L debug vars src d_start s_len d_len n =
        Except.ok r ∧
      r.calls = pre ++ [boot.zstd_call.ZSTD_initStaticDCtx buf r.vars.dctxsize,
        boot.zstd_call.ZSTD_decompressDCtx d_len 8 (big_endian_uint32 src 0)] ∧
      (pre = [] ∨ pre = [boot.zstd_call.ZSTD_estimateDCtxSize,
        boot.zstd_call.malloc (L.ZSTD_estimateDCtxSize + 8)]) ∧
      r.dst = (L.ZSTD_decompressDCtx d_start d_len (fun i => src (8 + i))
        (big_endian_uint32 src 0)).2 ∧
      (r.ret = 0 ↔
        L.ZSTD_isError (L.ZSTD_decompressDCtx d_start d_len (fun i => src (8 + i))
          (big_endian_uint32 src 0)).1 = false) ∧
      (r.ret = 0 ∨ r.ret = 1)) ∧
    (∀ src2 : Nat → byte, (∀ i, ¬ (4 ≤ i ∧ i < 8) → src2 i = src i) →
      boot.zstd_decompress P L debug vars src2 d_start s_len d_len n =
        boot.zstd_decompress P L debug vars src d_start s_len d_len n) := by
  have hmod : (big_endian_uint32 src 0 + 4 + 4) % 2 ^ P.size_bits =
      8 + big_endian_uint32 src 0 := by
    rw [Nat.mod_eq_of_lt (by omega)]
    omega
  have hnot : ¬ (big_endian_uint32 src 0 + 4 + 4) % 2 ^ P.size_bits > s_len := by
    rw [hmod]
    omega
  constructor
  · obtain ⟨r, pre, hr, hcalls, hpre, _, hdst, h1, h0⟩ :=
      boot_zstd_decompress_codec P L debug vars src d_start s_len d_len n buf ha hnot hctx
    refine ⟨r, pre, hr, hcalls, hpre, hdst, ?_, ?_⟩
    · cases he : L.ZSTD_isError (L.ZSTD_decompressDCtx d_start d_len
          (fun i => src (8 + i)) (big_endian_uint32 src 0)).1 with
      | true =>
        have := (h1 he).1
        constructor
        · intro hz
          rw [this] at hz
          exact absurd hz (by decide)
        · intro hf
          exact absurd hf (by simp)
      | false =>
        exact ⟨fun _ => rfl, fun _ => (h0 he).1⟩
    · cases he : L.ZSTD_isError (L.ZSTD_decompressDCtx d_start d_len
          (fun i => src (8 + i)) (big_endian_uint32 src 0)).1 with
      | true => exact Or.inr (h1 he).1
      | false => exact Or.inl (h0 he).1
  · intro src2 h
    have hbe : big_endian_uint32 src2 0 = big_endian_uint32 src 0 := by
      unfold big_endian_uint32
      rw [h 0 (by omega), h (0 + 1) (by omega), h (0 + 2) (by omega),
        h (0 + 3) (by omega)]
    rw [boot_zstd_decompress_eq P L debug vars src2 d_start s_len d_len n ha,
      boot_zstd_decompress_eq P L debug vars src d_start s_len d_len n ha, hbe]
    have hc : ∀ (v : boot.zstd_static) (b : Nat) (cs : List boot.zstd_call),
        boot.zstd_decompress_dctx L v b cs src2 d_start d_len (big_endian_uint32 src 0) =
        boot.zstd_decompress_dctx L v b cs src d_start d_len (big_endian_uint32 src 0) :=
      fun v b cs => boot_zstd_decompress_dctx_congr L v b cs src src2 d_start d_len _
        (fun i => h (8 + i) (by omega))
    simp only [hc]

theorem boot_zstd_decompress_payload_witness :
    8 + big_endian_uint32 (sample_abd [0, 0, 0, 8, 1, 2, 3, 4, 2, 65, 66]).abd_buf 0 ≤ 16 ∧
    dctx_obtained sample_zstd_lib ⟨none, 0⟩ 4104 ∧
    (∃ r pre, boot.zstd_decompress sample_lp64 sample_zstd_lib true ⟨none, 0⟩
        (sample_abd [0, 0, 0, 8, 1, 2, 3, 4, 2, 65, 66]).abd_buf [] 16 16 0 =
          Except.ok r ∧
      r.calls = pre ++ [boot.zstd_call.ZSTD_initStaticDCtx 4104 r.vars.dctxsize,
        boot.zstd_call.ZSTD_decompressDCtx 16 8
          (big_endian_uint32 (sample_abd [0, 0, 0, 8, 1, 2, 3, 4, 2, 65, 66]).abd_buf 0)] ∧
      (pre = [] ∨ pre = [boot.zstd_call.ZSTD_estimateDCtxSize,
        boot.zstd_call.malloc (sample_zstd_lib.ZSTD_estimateDCtxSize + 8)]) ∧
      r.dst = (sample_zstd_lib.ZSTD_decompressDCtx [] 16
        (fun i => (sample_abd [0, 0, 0, 8, 1, 2, 3, 4, 2, 65, 66]).abd_buf (8 + i))
        (big_endian_uint32 (sample_abd [0, 0, 0, 8, 1, 2, 3, 4, 2, 65, 66]).abd_buf 0)).2 ∧
      (r.ret = 0 ↔
        sample_zstd_lib.ZSTD_isError (sample_zstd_lib.ZSTD_decompressDCtx [] 16
          (fun i => (sample_abd [0, 0, 0, 8, 1, 2, 3, 4, 2, 65, 66]).abd_buf (8 + i))
          (big_endian_uint32
            (sample_abd [0, 0, 0, 8, 1, 2, 3, 4, 2, 65, 66]).abd_buf 0)).1 = false) ∧
      (r.ret = 0 ∨ r.ret = 1)) :=
  ⟨by decide, Or.inr ⟨rfl, ⟨4100, rfl, rfl⟩, rfl⟩,
   (boot_zstd_decompress_payload sample_lp64 sample_zstd_lib true ⟨none, 0⟩
      (sample_abd [0, 0, 0, 8, 1, 2, 3, 4, 2, 65, 66]).abd_buf [] 16 16 0 4104
      (fun _ => by decide) (by decide) (by decide)
      (Or.inr ⟨rfl, ⟨4100, rfl, rfl⟩, rfl⟩)).1⟩

/-! ## The words read by the zero scan -/

theorem load_uint64_eq_zero (data : Nat → byte) (k : Nat) :
    load_uint64 data k = 0 ↔ ∀ j, j < 8 → data (8 * k + j) = 0 := by
  constructor
  · intro h j hj
    unfold load_uint64 at h
    apply Fin.ext
    have e0 : 8 * k + 0 = 8 * k := rfl
    interval_cases j
    · rw [e0]
      show (data (8 * k)).val = 0
      omega
    all_goals (first
      | (show (data (8 * k + 1)).val = 0; omega)
      | (show (data (8 * k + 2)).val = 0; omega)
      | (show (data (8 * k + 3)).val = 0; omega)
      | (show (data (8 * k + 4)).val = 0; omega)
      | (show (data (8 * k + 5)).val = 0; omega)
      | (show (data (8 * k + 6)).val = 0; omega)
      | (show (data (8 * k + 7)).val = 0; omega))
  · intro h
    have h0 := h 0 (by omega)
    have h1 := h 1 (by omega)
    have h2 := h 2 (by omega)
    have h3 := h 3 (by omega)
    have h4 := h 4 (by omega)
    have h5 := h 5 (by omega)
    have h6 := h 6 (by omega)
    have h7 := h 7 (by omega)
    rw [Nat.add_zero] at h0
    unfold load_uint64
    rw [h0, h1, h2, h3, h4, h5, h6, h7]
    rfl

theorem zio_compress_zeroed_loop_reads (data : Nat → byte) (n k : Nat) :
    (zio_compress_zeroed_loop data n k).2.length ≤ n ∧
    ∀ j, j ∈ (zio_compress_zeroed_loop data n k).2 → k ≤ j ∧ j < k + n := by
  induction n generalizing k with
  | zero =>
    refine ⟨Nat.le_refl _, fun j hj => ?_⟩
    exact absurd hj (by simp [zio_compress_zeroed_loop])
  | succ n ih =>
    rw [zio_compress_zeroed_loop_succ]
    obtain ⟨ihl, ihm⟩ := ih (k + 1)
    by_cases hw : load_uint64 data k = 0
    · rw [if_neg (not_not.mpr hw)]
      refine ⟨Nat.succ_le_succ ihl, fun j hj => ?_⟩
      rcases List.mem_cons.mp hj with h | h
      · omega
      · have := ihm j h
        omega
    · rw [if_pos hw]
      refine ⟨by simp, fun j hj => ?_⟩
      have : j = k := by simpa using hj
      omega

theorem zio_compress_zeroed_loop_reaches (data : Nat → byte) (n k m : Nat)
    (hm : m < n) (hz : ∀ j, j < m → load_uint64 data (k + j) = 0) :
    k + m ∈ (zio_compress_zeroed_loop data n k).2 := by
  induction n generalizing k m with
  | zero => omega
  | succ n ih =>
    rw [zio_compress_zeroed_loop_succ]
    cases m with
    | zero =>
      by_cases hw : load_uint64 data k = 0
      · rw [if_neg (not_not.mpr hw)]
        exact List.mem_cons_self _ _
      · rw [if_pos hw]
        exact List.mem_cons_self _ _
    | succ m =>
      have hw : load_uint64 data k = 0 := by simpa using hz 0 (by omega)
      rw [if_neg (not_not.mpr hw)]
      have := ih (k + 1) m (by omega) (fun j hj => by
        have := hz (j + 1) (by omega)
        rw [show k + 1 + j = k + (j + 1) by omega]
        exact this)
      rw [show k + (m + 1) = k + 1 + m by omega]
      exact List.mem_cons_of_mem _ this

theorem zio_compress_zeroed_cb_bytes (data : Nat → byte) (len : Nat)
    (h8 : len % 8 = 0) :
    (zio_compress_zeroed_cb data len).1 = 0 ↔ ∀ i, i < len → data i = 0 := by
  rw [zio_compress_zeroed_cb_eq_zero]
  constructor
  · intro h i hi
    have hw := (load_uint64_eq_zero data (i / 8)).mp (h (i / 8) (by omega)) (i % 8)
      (by omega)
    rw [show 8 * (i / 8) + i % 8 = i by omega] at hw
    exact hw
  · intro h k hk
    exact (load_uint64_eq_zero data k).mpr (fun j hj => h (8 * k + j) (by omega))

/-- C20, as the code has it: `zio_compress_zeroed_cb` makes at most
`(len + 7) / 8` reads, each of a word that starts inside `[0, len)`.  For a
`len` that is a multiple of 8 every word read lies inside `[0, len)`, and
the value returned (and with it the test of the zero-block shortcut in
`zio_compress_data`) is 0 exactly when every byte of the buffer is zero.
For a `len` that is not a multiple of 8, when every word before the one of
index `len / 8` is zero, that word is read, it is the last one read, and it
extends beyond the buffer. -/
theorem zio_compress_zeroed_cb_words (data : Nat → byte) (len : Nat) :
    (zio_compress_zeroed_cb data len).2.length ≤ (len + 7) / 8 ∧
    (∀ k, k ∈ (zio_compress_zeroed_cb data len).2 → 8 * k < len) ∧
    (len % 8 = 0 →
      (∀ k, k ∈ (zio_compress_zeroed_cb data len).2 → 8 * k + 8 ≤ len) ∧
      ((zio_compress_zeroed_cb data len).1 = 0 ↔ ∀ i, i < len → data i = 0) ∧
      (abd_iterate_func ⟨data⟩ 0 len zio_compress_zeroed_cb = 0 ↔
        ∀ i, i < len → data i = 0)) ∧
    (len % 8 ≠ 0 → (∀ k, k < len / 8 → load_uint64 data k = 0) →
      len / 8 ∈ (zio_compress_zeroed_cb data len).2 ∧
      (∀ k, k ∈ (zio_compress_zeroed_cb data len).2 → k ≤ len / 8) ∧
      len < 8 * (len / 8) + 8) := by
  obtain ⟨hl, hm⟩ := zio_compress_zeroed_loop_reads data ((len + 7) / 8) 0
  have hin : ∀ k, k ∈ (zio_compress_zeroed_cb data len).2 → 8 * k < len := by
    intro k hk
    have := (hm k hk).2
    omega
  refine ⟨hl, hin, fun h8 => ⟨fun k hk => ?_, zio_compress_zeroed_cb_bytes data len h8, ?_⟩,
    fun h8 hz => ⟨?_, fun k hk => ?_, by omega⟩⟩
  · have := hin k hk
    omega
  · unfold abd_iterate_func
    simp only [Nat.zero_add]
    exact zio_compress_zeroed_cb_bytes data len h8
  · have := zio_compress_zeroed_loop_reaches data ((len + 7) / 8) 0 (len / 8) (by omega)
      (fun j hj => by simpa using hz j hj)
    simpa [zio_compress_zeroed_cb] using this
  · have := hin k hk
    omega

theorem zio_compress_zeroed_cb_words_witness :
    zio_compress_zeroed_cb (sample_abd [0, 0, 0, 0, 0, 0, 0, 0, 0, 7]).abd_buf 16 =
      (1, [0, 1]) ∧
    (∀ k, k ∈ (zio_compress_zeroed_cb
        (sample_abd [0, 0, 0, 0, 0, 0, 0, 0, 0, 7]).abd_buf 16).2 → 8 * k + 8 ≤ 16) ∧
    (1 ∈ (zio_compress_zeroed_cb
        (sample_abd [0, 0, 0, 0, 0, 0, 0, 0, 0, 7]).abd_buf 12).2 ∧
      12 < 8 * (12 / 8) + 8) :=
  ⟨by decide,
   ((zio_compress_zeroed_cb_words (sample_abd [0, 0, 0, 0, 0, 0, 0, 0, 0, 7]).abd_buf
      16).2.2.1 (by decide)).1,
   ((zio_compress_zeroed_cb_words (sample_abd [0, 0, 0, 0, 0, 0, 0, 0, 0, 7]).abd_buf
      12).2.2.2 (by decide) (fun k hk => by
        have hk0 : k = 0 := by omega
        subst hk0
        decide)).1,
   by decide⟩

/-- C20, counterexample to the claim as stated: with `len = 12`, not a
multiple of 8, and a buffer whose first byte is 1, the callback returns 1
after reading the word of index 0 alone, which lies inside the buffer. -/
theorem zio_compress_zeroed_cb_early_return :
    12 % 8 ≠ 0 ∧
    zio_compress_zeroed_cb (sample_abd [1]).abd_buf 12 = (1, [0]) ∧
    8 * 0 + 8 ≤ 12 := by
  decide

end ZioCompress
